import Mathlib

/-!
# Website controller: shallow embedding and verification

Embedding of `internal/controller/website_controller.go`
(`WebsiteReconciler.Reconcile`, `setResourceLabels`, `newDeployment`,
`newService`).

* Go strings are Lean `String`s, `map[string]string` is an association list,
  `int32` is `Int`, a pointer that may be `nil` is an `Option`.
* The `client.Client` the reconciler embeds is an interface; it is a
  parameter `Client σ` of the embedding, each method a state-passing function
  on an arbitrary platform state `σ`.
* A Go `error` is `Option Error` (`none` is `nil`); a runtime panic of
  `Reconcile` is the outcome `Outcome.Panic`.
* Logging has no effect on the result and is left out.
-/

set_option linter.dupNamespace false

namespace WebsiteController

/-! ## Data model (the fields of the Kubernetes API types the source uses) -/

/-- Go `map[string]string`, as an association list in literal order. -/
abbrev Labels := List (String × String)

/-- Value stored under a key of a label map. -/
def Labels.get (m : Labels) (k : String) : Option String :=
  (m.find? (fun kv => kv.1 = k)).map Prod.snd

/-- Go `types.NamespacedName`. -/
structure NamespacedName where
  Namespace : String
  Name : String
  deriving DecidableEq, Repr

/-- Go `metav1.ObjectMeta` (the zero value is the default). -/
structure ObjectMeta where
  Name : String := ""
  Namespace : String := ""
  Labels : Labels := []
  deriving DecidableEq, Repr

/-- Identity of an object in the platform store. -/
def ObjectMeta.key (m : ObjectMeta) : NamespacedName :=
  { Namespace := m.Namespace, Name := m.Name }

/-- Go `kubeconv1beta1.WebsiteSpec` (declared in `api/v1beta1`): the field the
source reads. -/
structure WebsiteSpec where
  ImageTag : String := ""
  deriving DecidableEq, Repr

/-- Go `kubeconv1beta1.Website`, the parent resource (declared in
`api/v1beta1`): object metadata and `Spec`, as the source reads them. -/
structure Website extends ObjectMeta where
  Spec : WebsiteSpec := {}
  deriving DecidableEq, Repr

/-- Go `corev1.ContainerPort`. -/
structure ContainerPort where
  ContainerPort : Int := 0
  deriving DecidableEq, Repr

/-- Go `corev1.Container`. -/
structure Container where
  Name : String := ""
  Image : String := ""
  Ports : List ContainerPort := []
  deriving DecidableEq, Repr

/-- Go `corev1.PodSpec`. -/
structure PodSpec where
  Containers : List Container := []
  deriving DecidableEq, Repr

/-- Go `corev1.PodTemplateSpec`. -/
structure PodTemplateSpec extends ObjectMeta where
  Spec : PodSpec := {}
  deriving DecidableEq, Repr

/-- Go `metav1.LabelSelector`. -/
structure LabelSelector where
  MatchLabels : Labels := []
  deriving DecidableEq, Repr

/-- Go `appsv1.DeploymentSpec`; `Replicas` and `Selector` are pointers. -/
structure DeploymentSpec where
  Replicas : Option Int := none
  Selector : Option LabelSelector := none
  Template : PodTemplateSpec := {}
  deriving DecidableEq, Repr

/-- Go `appsv1.Deployment`; `({} : Deployment)` is `appsv1.Deployment{}`. -/
structure Deployment extends ObjectMeta where
  Spec : DeploymentSpec := {}
  deriving DecidableEq, Repr

/-- Go `corev1.ServicePort`. -/
structure ServicePort where
  Port : Int := 0
  NodePort : Int := 0
  deriving DecidableEq, Repr

/-- Go `corev1.ServiceSpec`; `Type_` is the field `Type`, of the string type
`corev1.ServiceType`. -/
structure ServiceSpec where
  Ports : List ServicePort := []
  Selector : Labels := []
  Type_ : String := ""
  deriving DecidableEq, Repr

/-- Go `corev1.Service`. -/
structure Service extends ObjectMeta where
  Spec : ServiceSpec := {}
  deriving DecidableEq, Repr

/-- Go `corev1.ServiceTypeNodePort`. -/
def ServiceTypeNodePort : String := "NodePort"

/-! ## Errors -/

/-- Go `metav1.StatusReason`, the kinds the `errors.Is...` predicates test. -/
inductive StatusReason where
  | Unknown
  | NotFound
  | AlreadyExists
  | Invalid
  | Conflict
  | Forbidden
  | Timeout
  | InternalError
  deriving DecidableEq, Repr

/-- A non-nil Go `error`: its status reason and the text of `Error()`. -/
structure Error where
  Reason : StatusReason
  Message : String
  deriving DecidableEq, Repr

/-- Go `errors.IsNotFound`. -/
def IsNotFound (err : Error) : Bool := err.Reason = StatusReason.NotFound

/-- Go `errors.IsAlreadyExists`. -/
def IsAlreadyExists (err : Error) : Bool := err.Reason = StatusReason.AlreadyExists

/-- Go `errors.IsInvalid`. -/
def IsInvalid (err : Error) : Bool := err.Reason = StatusReason.Invalid

/-- Whether `sub` occurs in `s` as a contiguous block. -/
def containsChars : List Char → List Char → Bool
  | [], sub => sub.isEmpty
  | c :: s, sub => sub.isPrefixOf (c :: s) || containsChars s sub

/-- Go `strings.Contains`. -/
def stringsContains (s sub : String) : Bool := containsChars s.data sub.data

/-- Go formatting of an `error` operand under `%v`: `Error()`, or `<nil>`. -/
def fmtV : Option Error → String
  | none => "<nil>"
  | some err => err.Message

/-- Go `fmt.Errorf` without `%w`: a fresh error that carries only a message. -/
def fmtErrorf (msg : String) : Error := { Reason := StatusReason.Unknown, Message := msg }

/-! ## Resource builders (source lines 175-237) -/

/-- Go `setResourceLabels`. -/
def setResourceLabels (name : String) : Labels :=
  [("website", name), ("type", "Website")]

/-- Go `newDeployment`. -/
def newDeployment (name ns imageTag : String) : Deployment :=
  { Name := name
    Namespace := ns
    Labels := setResourceLabels name
    Spec :=
      { Replicas := some 2
        Selector := some { MatchLabels := setResourceLabels name }
        Template :=
          { Labels := setResourceLabels name
            Spec :=
              { Containers :=
                  [{ Name := "nginx"
                     Image := "abangser/todo-local-storage:" ++ imageTag
                     Ports := [{ ContainerPort := 80 }] }] } } } }

/-- Go `newService`. -/
def newService (name ns : String) : Service :=
  { Name := name
    Namespace := ns
    Labels := setResourceLabels name
    Spec :=
      { Ports := [{ Port := 80, NodePort := 31000 }]
        Selector := setResourceLabels name
        Type_ := ServiceTypeNodePort } }

/-! ## The client interface and the reconciler (source lines 61-166) -/

/-- The methods of `client.Client` that `Reconcile` calls, one per object
kind, over a platform state `σ`. `Get` yields the populated object or an
error; the other calls yield `nil` or an error. `PatchDeployment obj base`
is `Patch(ctx, &obj, client.StrategicMergeFrom(base))`. -/
structure Client (σ : Type) where
  GetWebsite : NamespacedName → σ → Except Error Website × σ
  GetDeployment : NamespacedName → σ → Except Error Deployment × σ
  CreateDeployment : Deployment → σ → Option Error × σ
  CreateService : Service → σ → Option Error × σ
  PatchDeployment : Deployment → Deployment → σ → Option Error × σ
  DeleteDeployment : Deployment → σ → Option Error × σ
  DeleteService : Service → σ → Option Error × σ

/-- How a call of `Reconcile` ends: `return ctrl.Result{}, nil`,
`return ctrl.Result{}, err`, or a runtime panic (index out of range). -/
inductive Outcome where
  | Done
  | Failed (err : Error)
  | Panic
  deriving DecidableEq, Repr

/-- Source lines 129-158, the branch taken when the service create reports
that the port is already allocated. The error of the deployment `Get` is
discarded (line 135): on an error the local `deployment` stays
`appsv1.Deployment{}`. Indexing `Containers[0]` of an empty slice panics. -/
def reconcileDrift {σ : Type} (r : Client σ) (customResource : Website) (s : σ) :
    Outcome × σ :=
  let deploymentNamespacedName : NamespacedName :=
    { Name := customResource.Name, Namespace := customResource.Namespace }
  let got := r.GetDeployment deploymentNamespacedName s
  let deployment : Deployment :=
    match got.1 with
    | .ok d => d
    | .error _ => {}
  match deployment.Spec.Template.Spec.Containers with
  | [] => (Outcome.Panic, got.2)
  | c0 :: rest =>
    let currentImage := c0.Image
    let desiredImage := "abangser/todo-local-storage:" ++ customResource.Spec.ImageTag
    if currentImage ≠ desiredImage then
      let base := deployment
      let modified : Deployment :=
        { deployment with
          Spec.Template.Spec.Containers := { c0 with Image := desiredImage } :: rest }
      let patched := r.PatchDeployment modified base got.2
      match patched.1 with
      | some err => (Outcome.Failed err, patched.2)
      | none => (Outcome.Done, patched.2)
    else
      (Outcome.Done, got.2)

/-- Source lines 123-165: create the service, then either finish, enter the
drift branch, or surface the error. -/
def reconcileService {σ : Type} (r : Client σ) (customResource : Website) (s : σ) :
    Outcome × σ :=
  let created := r.CreateService (newService customResource.Name customResource.Namespace) s
  match created.1 with
  | some err =>
    if IsInvalid err && stringsContains err.Message "provided port is already allocated" then
      reconcileDrift r customResource created.2
    else
      (Outcome.Failed err, created.2)
  | none => (Outcome.Done, created.2)

/-- Go `(*WebsiteReconciler).Reconcile`. -/
def Reconcile {σ : Type} (r : Client σ) (req : NamespacedName) (s : σ) : Outcome × σ :=
  let got := r.GetWebsite req s
  match got.1 with
  | .error err =>
    if IsNotFound err then
      let deleted1 := r.DeleteDeployment (newDeployment req.Name req.Namespace "n/a") got.2
      let deployErr := deleted1.1
      let deleted2 := r.DeleteService (newService req.Name req.Namespace) deleted1.2
      let serviceErr := deleted2.1
      if deployErr ≠ none ∨ serviceErr ≠ none then
        (Outcome.Failed (fmtErrorf (fmtV deployErr ++ "/n" ++ fmtV serviceErr)), deleted2.2)
      else
        (Outcome.Done, deleted2.2)
    else
      (Outcome.Failed err, got.2)
  | .ok customResource =>
    let created := r.CreateDeployment
      (newDeployment customResource.Name customResource.Namespace customResource.Spec.ImageTag)
      got.2
    match created.1 with
    | some err =>
      if IsAlreadyExists err then
        reconcileService r customResource created.2
      else
        (Outcome.Failed err, created.2)
    | none => reconcileService r customResource created.2

/-! ## Recording the calls a reconciliation issues -/

/-- One call on the client, with its arguments. -/
inductive Call where
  | GetWebsite (key : NamespacedName)
  | GetDeployment (key : NamespacedName)
  | CreateDeployment (obj : Deployment)
  | CreateService (obj : Service)
  | PatchDeployment (obj base : Deployment)
  | DeleteDeployment (obj : Deployment)
  | DeleteService (obj : Service)
  deriving DecidableEq, Repr

/-- The same client, appending every call it receives to a log. -/
def traced {σ : Type} (r : Client σ) : Client (σ × List Call) where
  GetWebsite key st :=
    ((r.GetWebsite key st.1).1, ((r.GetWebsite key st.1).2, st.2 ++ [Call.GetWebsite key]))
  GetDeployment key st :=
    ((r.GetDeployment key st.1).1, ((r.GetDeployment key st.1).2, st.2 ++ [Call.GetDeployment key]))
  CreateDeployment obj st :=
    ((r.CreateDeployment obj st.1).1,
      ((r.CreateDeployment obj st.1).2, st.2 ++ [Call.CreateDeployment obj]))
  CreateService obj st :=
    ((r.CreateService obj st.1).1, ((r.CreateService obj st.1).2, st.2 ++ [Call.CreateService obj]))
  PatchDeployment obj base st :=
    ((r.PatchDeployment obj base st.1).1,
      ((r.PatchDeployment obj base st.1).2, st.2 ++ [Call.PatchDeployment obj base]))
  DeleteDeployment obj st :=
    ((r.DeleteDeployment obj st.1).1,
      ((r.DeleteDeployment obj st.1).2, st.2 ++ [Call.DeleteDeployment obj]))
  DeleteService obj st :=
    ((r.DeleteService obj st.1).1, ((r.DeleteService obj st.1).2, st.2 ++ [Call.DeleteService obj]))

/-- Outcome of one reconciliation from platform state `s`. -/
def outcomeOf {σ : Type} (r : Client σ) (req : NamespacedName) (s : σ) : Outcome :=
  (Reconcile r req s).1

/-- Platform state after one reconciliation from `s`. -/
def stateAfter {σ : Type} (r : Client σ) (req : NamespacedName) (s : σ) : σ :=
  (Reconcile r req s).2

/-- The calls one reconciliation from `s` issues, in order. -/
def callsOf {σ : Type} (r : Client σ) (req : NamespacedName) (s : σ) : List Call :=
  (Reconcile (traced r) req (s, [])).2.2

/-- Whether a call is a patch. -/
def Call.isPatch : Call → Bool
  | Call.PatchDeployment _ _ => true
  | _ => false

/-- Whether a call is a get of a child object. -/
def Call.isChildGet : Call → Bool
  | Call.GetDeployment _ => true
  | _ => false

/-! ## The platform object store

`Reconcile` reaches the orchestration platform only through `Client`. For the
properties that speak of what the store holds, the platform is the in-memory
store below, which follows the platform's behaviour at the boundary the
reconciler relies on:

* objects are identified by `(Namespace, Name)` within their kind;
* `get` yields the object or `NotFound`; `delete` removes it or reports
  `NotFound`; `create` of an identity already present reports `AlreadyExists`;
* a node port is allocated cluster-wide: a service create naming a node port
  that some stored service already holds is rejected as `Invalid` with
  `provided port is already allocated`, and this check precedes the
  `AlreadyExists` check (the source depends on it to recognise its own
  existing service);
* `patch` applies a strategic merge: containers are matched by `name`, a
  changed container image is written to the stored container of that name.

The store never fails for any other reason (no transport faults, no other
writer); faults are covered by the properties stated over an arbitrary
`Client`. -/

/-- Modelled from the spec: the state of the platform object store (an
external collaborator, spec sections 3 and 6), as the stored objects of the
three kinds. -/
structure Store where
  Websites : List Website := []
  Deployments : List Deployment := []
  Services : List Service := []
  deriving DecidableEq, Repr

/-- The stored website of an identity. -/
def Store.findWebsite (s : Store) (key : NamespacedName) : Option Website :=
  s.Websites.find? (fun w => w.key = key)

/-- The stored deployment of an identity. -/
def Store.findDeployment (s : Store) (key : NamespacedName) : Option Deployment :=
  s.Deployments.find? (fun d => d.key = key)

/-- The stored service of an identity. -/
def Store.findService (s : Store) (key : NamespacedName) : Option Service :=
  s.Services.find? (fun v => v.key = key)

/-- Whether a service holds a node port. -/
def Service.holdsNodePort (v : Service) (port : Int) : Bool :=
  v.Spec.Ports.any (fun p => p.NodePort = port)

/-- Whether some stored service already holds a node port `obj` names
(node port `0` means "allocate one for me" and never conflicts). -/
def Store.portAllocated (s : Store) (obj : Service) : Bool :=
  obj.Spec.Ports.any (fun q => q.NodePort ≠ 0 && s.Services.any (fun v => v.holdsNodePort q.NodePort))

/-- The platform's `NotFound` status error. -/
def errNotFound (kind name : String) : Error :=
  { Reason := StatusReason.NotFound, Message := kind ++ " \"" ++ name ++ "\" not found" }

/-- The platform's `AlreadyExists` status error. -/
def errAlreadyExists (kind name : String) : Error :=
  { Reason := StatusReason.AlreadyExists, Message := kind ++ " \"" ++ name ++ "\" already exists" }

/-- The platform's `Invalid` status error for a node port that is taken. -/
def errPortAllocated (name : String) : Error :=
  { Reason := StatusReason.Invalid
    Message := "Service \"" ++ name ++
      "\" is invalid: spec.ports[0].nodePort: " ++
      "provided port is already allocated" }

/-- Apply `f` to the first element satisfying `p`. -/
def updateFirst {α : Type} (p : α → Bool) (f : α → α) : List α → List α
  | [] => []
  | x :: xs => if p x then f x :: xs else x :: updateFirst p f xs

/-- Strategic merge of one container entry `(name, image)` into a container
list: the first container of that name gets the image; with no such
container the entry is added as a new container. -/
def setImageByName (name image : String) : List Container → List Container
  | [] => [{ Name := name, Image := image }]
  | c :: cs =>
    if c.Name = name then { c with Image := image } :: cs
    else c :: setImageByName name image cs

/-- The container entries of the strategic-merge patch from `base` to `obj`:
one `(name, image)` entry for each position at which the image changed.
Only image changes are covered, the one change `Reconcile` makes between
`base` (a deep copy of the observed object) and `obj`. -/
def imageDiff (base obj : Deployment) : List (String × String) :=
  (List.zip base.Spec.Template.Spec.Containers obj.Spec.Template.Spec.Containers).filterMap
    (fun bo => if bo.1.Image ≠ bo.2.Image then some (bo.2.Name, bo.2.Image) else none)

/-- Apply the container entries of a patch to a stored deployment. -/
def applyImagePatch (entries : List (String × String)) (d : Deployment) : Deployment :=
  { d with
    Spec.Template.Spec.Containers :=
      entries.foldl (fun cs e => setImageByName e.1 e.2 cs) d.Spec.Template.Spec.Containers }

/-- Modelled from the spec: the platform object store behind `client.Client`
(spec section 6, outbound interface: `get`, `create`, `patch`, `delete` by
identity; section 3: node ports are allocated cluster-wide; section 4.4: a
patch touches the image field only). -/
def storeClient : Client Store where
  GetWebsite key s :=
    match s.findWebsite key with
    | some w => (Except.ok w, s)
    | none => (Except.error (errNotFound "websites.kubecon.bmutziu.me" key.Name), s)
  GetDeployment key s :=
    match s.findDeployment key with
    | some d => (Except.ok d, s)
    | none => (Except.error (errNotFound "deployments.apps" key.Name), s)
  CreateDeployment obj s :=
    match s.findDeployment obj.key with
    | some _ => (some (errAlreadyExists "deployments.apps" obj.Name), s)
    | none => (none, { s with Deployments := s.Deployments ++ [obj] })
  CreateService obj s :=
    if s.portAllocated obj then (some (errPortAllocated obj.Name), s)
    else
      match s.findService obj.key with
      | some _ => (some (errAlreadyExists "services" obj.Name), s)
      | none => (none, { s with Services := s.Services ++ [obj] })
  PatchDeployment obj base s :=
    match s.findDeployment obj.key with
    | some _ =>
      (none, { s with
        Deployments :=
          updateFirst (fun d => d.key = obj.key) (applyImagePatch (imageDiff base obj))
            s.Deployments })
    | none => (some (errNotFound "deployments.apps" obj.Name), s)
  DeleteDeployment obj s :=
    match s.findDeployment obj.key with
    | some _ => (none, { s with Deployments := s.Deployments.filter (fun d => d.key ≠ obj.key) })
    | none => (some (errNotFound "deployments.apps" obj.Name), s)
  DeleteService obj s :=
    match s.findService obj.key with
    | some _ => (none, { s with Services := s.Services.filter (fun v => v.key ≠ obj.key) })
    | none => (some (errNotFound "services" obj.Name), s)

/-! ## Fault injection -/

/-- Errors to inject, per client call (`none`: the call goes through). -/
structure Faults where
  GetWebsite : Option Error := none
  GetDeployment : Option Error := none
  CreateDeployment : Option Error := none
  CreateService : Option Error := none
  PatchDeployment : Option Error := none
  DeleteDeployment : Option Error := none
  DeleteService : Option Error := none

/-- The client `r` with faults injected: a call with a fault set returns that
error and leaves the platform state as it is. -/
def faulty {σ : Type} (f : Faults) (r : Client σ) : Client σ where
  GetWebsite key s :=
    match f.GetWebsite with
    | some err => (Except.error err, s)
    | none => r.GetWebsite key s
  GetDeployment key s :=
    match f.GetDeployment with
    | some err => (Except.error err, s)
    | none => r.GetDeployment key s
  CreateDeployment obj s :=
    match f.CreateDeployment with
    | some err => (some err, s)
    | none => r.CreateDeployment obj s
  CreateService obj s :=
    match f.CreateService with
    | some err => (some err, s)
    | none => r.CreateService obj s
  PatchDeployment obj base s :=
    match f.PatchDeployment with
    | some err => (some err, s)
    | none => r.PatchDeployment obj base s
  DeleteDeployment obj s :=
    match f.DeleteDeployment with
    | some err => (some err, s)
    | none => r.DeleteDeployment obj s
  DeleteService obj s :=
    match f.DeleteService with
    | some err => (some err, s)
    | none => r.DeleteService obj s

/-! ## Example inputs -/

/-- The identity `(ns, site-a)`. -/
def siteA : NamespacedName := { Namespace := "ns", Name := "site-a" }

/-- The identity `(ns, site-b)`. -/
def siteB : NamespacedName := { Namespace := "ns", Name := "site-b" }

/-- A parent resource with an image tag. -/
def website (key : NamespacedName) (tag : String) : Website :=
  { Name := key.Name, Namespace := key.Namespace, Spec := { ImageTag := tag } }

/-- No parent; the deployment and the service of `site-a` are stored. -/
def orphanStore : Store :=
  { Deployments := [newDeployment "site-a" "ns" "v1"], Services := [newService "site-a" "ns"] }

/-- No parent and no deployment; the service of `site-a` is still stored. -/
def serviceOnlyStore : Store :=
  { Services := [newService "site-a" "ns"] }

/-- Parent `site-a` at tag `v1`, nothing else. -/
def freshStore : Store :=
  { Websites := [website siteA "v1"] }

/-- Parent `site-a` at tag `v2`; its deployment (still at `v1`) and its
service are stored. -/
def driftedStore : Store :=
  { Websites := [website siteA "v2"]
    Deployments := [newDeployment "site-a" "ns" "v1"]
    Services := [newService "site-a" "ns"] }

/-- Parent `site-a` at tag `v1`; its deployment and its service are stored. -/
def settledStore : Store :=
  { Websites := [website siteA "v1"]
    Deployments := [newDeployment "site-a" "ns" "v1"]
    Services := [newService "site-a" "ns"] }

/-- Parent `site-a` at tag `v2`; its deployment (still at `v1`) is stored,
its service is not. -/
def staleNoServiceStore : Store :=
  { Websites := [website siteA "v2"]
    Deployments := [newDeployment "site-a" "ns" "v1"] }

/-- Parents `site-a` and `site-b`; only `site-a` has been reconciled. -/
def twoSitesStore : Store :=
  { Websites := [website siteA "v1", website siteB "v1"]
    Deployments := [newDeployment "site-a" "ns" "v1"]
    Services := [newService "site-a" "ns"] }

/-- A permission error of the platform. -/
def errForbidden : Error := { Reason := StatusReason.Forbidden, Message := "forbidden" }

/-- A timeout of the platform. -/
def errTimeout : Error := { Reason := StatusReason.Timeout, Message := "request timed out" }

/-- A write conflict of the platform. -/
def errConflict : Error :=
  { Reason := StatusReason.Conflict, Message := "the object has been modified" }

/-! ## Definitions for the builder and drift properties -/

/-- Whether a label selector given as a label set matches an object's
labels: every selector entry is among the labels (the platform's equality
selector semantics). -/
def selectorMatches (selector labels : Labels) : Bool :=
  selector.all (fun kv => Labels.get labels kv.1 = some kv.2)

/-- Whether a call is a delete. -/
def Call.isDelete : Call → Bool
  | Call.DeleteDeployment _ => true
  | Call.DeleteService _ => true
  | _ => false

/-- The desired image the drift branch computes (source line 140):
`fmt.Sprintf("abangser/todo-local-storage:%s", customResource.Spec.ImageTag)`. -/
def driftDesiredImage (customResource : Website) : String :=
  "abangser/todo-local-storage:" ++ customResource.Spec.ImageTag

/-- An `Invalid` error that is not about the node port. -/
def errInvalidOther : Error :=
  { Reason := StatusReason.Invalid, Message := "spec.ports[0].port: Required value" }

/-- An error that is not `Invalid` but whose text mentions the node port. -/
def errForbiddenPort : Error :=
  { Reason := StatusReason.Forbidden, Message := "provided port is already allocated" }

/-! ## Auxiliary lemmas -/

theorem containsChars_iff (s sub : List Char) : containsChars s sub = true ↔ sub <:+: s := by
  induction s with
  | nil => simp [containsChars, List.infix_nil]
  | cons c s ih =>
    simp only [containsChars, Bool.or_eq_true, ih, List.isPrefixOf_iff_prefix]
    exact (List.infix_cons_iff).symm

theorem stringsContains_iff (s sub : String) :
    stringsContains s sub = true ↔ sub.data <:+: s.data :=
  containsChars_iff s.data sub.data

/-- Recording the calls changes neither the outcome nor the platform state. -/
theorem traced_Reconcile {σ : Type} (r : Client σ) (req : NamespacedName) (s : σ)
    (l : List Call) :
    (Reconcile (traced r) req (s, l)).1 = (Reconcile r req s).1 ∧
    (Reconcile (traced r) req (s, l)).2.1 = (Reconcile r req s).2 := by
  simp only [Reconcile, reconcileService, reconcileDrift, traced]
  repeat' split
  all_goals simp_all

/-! ## Teardown (parent not found) -/

/-- C1 (the code departs from the claim). The store holds no parent and no
deployment for `(ns, site-a)` but still holds its service: the parent fetch
reports NotFound, the deployment delete reports NotFound, the service delete
succeeds, and `Reconcile` returns an error instead of `nil`. -/
theorem Reconcile_teardown_absent_deployment_fails :
    (∃ e, (storeClient.GetWebsite siteA serviceOnlyStore).1 = Except.error e ∧
      IsNotFound e = true) ∧
    (∃ e, (storeClient.DeleteDeployment (newDeployment "site-a" "ns" "n/a")
        serviceOnlyStore).1 = some e ∧ IsNotFound e = true) ∧
    (storeClient.DeleteService (newService "site-a" "ns") serviceOnlyStore).1 = none ∧
    outcomeOf storeClient siteA serviceOnlyStore =
      Outcome.Failed (fmtErrorf "deployments.apps \"site-a\" not found/n<nil>") ∧
    outcomeOf storeClient siteA serviceOnlyStore ≠ Outcome.Done := by
  refine ⟨⟨_, rfl, rfl⟩, ⟨_, rfl, rfl⟩, rfl, ?_, ?_⟩ <;> decide

/-- C3. On the parent-NotFound path both deletes are always issued, in order,
whatever the deployment delete returned; and if a delete fails with an
error other than NotFound, `Reconcile` returns an error whose message
contains the message of every delete error that occurred. -/
theorem Reconcile_teardown_aggregates {σ : Type} (r : Client σ) (req : NamespacedName) (s : σ)
    (e0 : Error) (hget : (r.GetWebsite req s).1 = Except.error e0)
    (hnf : IsNotFound e0 = true) :
    callsOf r req s =
      [Call.GetWebsite req,
       Call.DeleteDeployment (newDeployment req.Name req.Namespace "n/a"),
       Call.DeleteService (newService req.Name req.Namespace)] ∧
    (((∃ e, (r.DeleteDeployment (newDeployment req.Name req.Namespace "n/a")
          (r.GetWebsite req s).2).1 = some e ∧ IsNotFound e = false) ∨
      (∃ e, (r.DeleteService (newService req.Name req.Namespace)
          (r.DeleteDeployment (newDeployment req.Name req.Namespace "n/a")
            (r.GetWebsite req s).2).2).1 = some e ∧ IsNotFound e = false)) →
      ∃ err, outcomeOf r req s = Outcome.Failed err ∧
        (∀ e, (r.DeleteDeployment (newDeployment req.Name req.Namespace "n/a")
          (r.GetWebsite req s).2).1 = some e → e.Message.data <:+: err.Message.data) ∧
        (∀ e, (r.DeleteService (newService req.Name req.Namespace)
          (r.DeleteDeployment (newDeployment req.Name req.Namespace "n/a")
            (r.GetWebsite req s).2).2).1 = some e → e.Message.data <:+: err.Message.data)) := by
  constructor
  · simp [callsOf, Reconcile, traced, hget, hnf]
    split <;> rfl
  · intro hfail
    refine ⟨fmtErrorf (fmtV (r.DeleteDeployment (newDeployment req.Name req.Namespace "n/a")
          (r.GetWebsite req s).2).1 ++ "/n" ++
        fmtV (r.DeleteService (newService req.Name req.Namespace)
          (r.DeleteDeployment (newDeployment req.Name req.Namespace "n/a")
            (r.GetWebsite req s).2).2).1), ?_, ?_, ?_⟩
    · simp only [outcomeOf, Reconcile, hget, hnf, if_true]
      rw [if_pos]
      rcases hfail with ⟨e, he, _⟩ | ⟨e, he, _⟩
      · left; simp [he]
      · right; simp [he]
    · intro e he
      simp only [he, fmtV, fmtErrorf, String.data_append, List.append_assoc]
      exact (List.prefix_append _ _).isInfix
    · intro e he
      simp only [he, fmtV, fmtErrorf, String.data_append]
      exact (List.suffix_append _ _).isInfix

/-- Witness of C3: no parent, deployment and service stored, the service
delete is refused. -/
theorem Reconcile_teardown_aggregates_witness :
    IsNotFound (errNotFound "websites.kubecon.bmutziu.me" "site-a") = true ∧
    callsOf (faulty { DeleteService := some errForbidden } storeClient) siteA orphanStore =
      [Call.GetWebsite siteA,
       Call.DeleteDeployment (newDeployment "site-a" "ns" "n/a"),
       Call.DeleteService (newService "site-a" "ns")] ∧
    ∃ err, outcomeOf (faulty { DeleteService := some errForbidden } storeClient) siteA
        orphanStore = Outcome.Failed err ∧
      errForbidden.Message.data <:+: err.Message.data := by
  have h := Reconcile_teardown_aggregates
    (faulty { DeleteService := some errForbidden } storeClient) siteA orphanStore
    (errNotFound "websites.kubecon.bmutziu.me" "site-a") rfl rfl
  obtain ⟨err, h1, _, h3⟩ := h.2 (Or.inr ⟨errForbidden, rfl, rfl⟩)
  exact ⟨rfl, h.1, err, h1, h3 errForbidden rfl⟩

/-! ## Errors that are not recognised -/

/-- C9. An error `Reconcile` does not recognise is returned as it is, and the
failing call is the last call issued: (1) a parent fetch failing with
other than NotFound; (2) a deployment create failing with other than
AlreadyExists; (3) a service create failing with other than the recognised
port-already-allocated error; (4) a failing image patch. -/
theorem Reconcile_surfaces_unrecognised {σ : Type} (r : Client σ) (req : NamespacedName)
    (s : σ) :
    (∀ e s1, r.GetWebsite req s = (Except.error e, s1) → IsNotFound e = false →
      Reconcile r req s = (Outcome.Failed e, s1) ∧
      callsOf r req s = [Call.GetWebsite req]) ∧
    (∀ w s1 e s2, r.GetWebsite req s = (Except.ok w, s1) →
      r.CreateDeployment (newDeployment w.Name w.Namespace w.Spec.ImageTag) s1 = (some e, s2) →
      IsAlreadyExists e = false →
      Reconcile r req s = (Outcome.Failed e, s2) ∧
      callsOf r req s =
        [Call.GetWebsite req,
         Call.CreateDeployment (newDeployment w.Name w.Namespace w.Spec.ImageTag)]) ∧
    (∀ w s1 cd s2 e s3, r.GetWebsite req s = (Except.ok w, s1) →
      r.CreateDeployment (newDeployment w.Name w.Namespace w.Spec.ImageTag) s1 = (cd, s2) →
      (∀ e1, cd = some e1 → IsAlreadyExists e1 = true) →
      r.CreateService (newService w.Name w.Namespace) s2 = (some e, s3) →
      (IsInvalid e && stringsContains e.Message "provided port is already allocated") = false →
      Reconcile r req s = (Outcome.Failed e, s3) ∧
      callsOf r req s =
        [Call.GetWebsite req,
         Call.CreateDeployment (newDeployment w.Name w.Namespace w.Spec.ImageTag),
         Call.CreateService (newService w.Name w.Namespace)]) ∧
    (∀ w s1 cd s2 e3 s3 d s4 c0 rest e s5, r.GetWebsite req s = (Except.ok w, s1) →
      r.CreateDeployment (newDeployment w.Name w.Namespace w.Spec.ImageTag) s1 = (cd, s2) →
      (∀ e1, cd = some e1 → IsAlreadyExists e1 = true) →
      r.CreateService (newService w.Name w.Namespace) s2 = (some e3, s3) →
      (IsInvalid e3 && stringsContains e3.Message "provided port is already allocated") = true →
      r.GetDeployment { Name := w.Name, Namespace := w.Namespace } s3 = (Except.ok d, s4) →
      d.Spec.Template.Spec.Containers = c0 :: rest →
      c0.Image ≠ "abangser/todo-local-storage:" ++ w.Spec.ImageTag →
      r.PatchDeployment
        { d with Spec.Template.Spec.Containers :=
            { c0 with Image := "abangser/todo-local-storage:" ++ w.Spec.ImageTag } :: rest }
        d s4 = (some e, s5) →
      Reconcile r req s = (Outcome.Failed e, s5) ∧
      callsOf r req s =
        [Call.GetWebsite req,
         Call.CreateDeployment (newDeployment w.Name w.Namespace w.Spec.ImageTag),
         Call.CreateService (newService w.Name w.Namespace),
         Call.GetDeployment { Name := w.Name, Namespace := w.Namespace },
         Call.PatchDeployment
           { d with Spec.Template.Spec.Containers :=
               { c0 with Image := "abangser/todo-local-storage:" ++ w.Spec.ImageTag } :: rest }
           d]) := by
  refine ⟨?_, ?_, ?_, ?_⟩
  · intro e s1 h hn
    simp [callsOf, Reconcile, traced, h, hn]
  · intro w s1 e s2 h1 h2 hn
    simp [callsOf, Reconcile, traced, h1, h2, hn]
  · intro w s1 cd s2 e s3 h1 h2 hcd h3 hn
    cases cd with
    | none => simp [callsOf, Reconcile, reconcileService, traced, h1, h2, h3, hn]
    | some e1 =>
      have := hcd e1 rfl
      simp [callsOf, Reconcile, reconcileService, traced, h1, h2, h3, hn, this]
  · intro w s1 cd s2 e3 s3 d s4 c0 rest e s5 h1 h2 hcd h3 hr h4 hc hne h5
    cases cd with
    | none =>
      simp [callsOf, Reconcile, reconcileService, reconcileDrift, traced, h1, h2, h3, hr, h4, hc,
        hne, h5]
    | some e1 =>
      have := hcd e1 rfl
      simp [callsOf, Reconcile, reconcileService, reconcileDrift, traced, h1, h2, h3, hr, h4, hc,
        hne, h5, this]

/-- Witness of C9: one injected fault for each of the four calls. -/
theorem Reconcile_surfaces_unrecognised_witness :
    (Reconcile (faulty { GetWebsite := some errForbidden } storeClient) siteA freshStore =
        (Outcome.Failed errForbidden, freshStore) ∧
      callsOf (faulty { GetWebsite := some errForbidden } storeClient) siteA freshStore =
        [Call.GetWebsite siteA]) ∧
    (Reconcile (faulty { CreateDeployment := some errForbidden } storeClient) siteA freshStore =
        (Outcome.Failed errForbidden, freshStore) ∧
      callsOf (faulty { CreateDeployment := some errForbidden } storeClient) siteA freshStore =
        [Call.GetWebsite siteA, Call.CreateDeployment (newDeployment "site-a" "ns" "v1")]) ∧
    (Reconcile (faulty { CreateService := some errTimeout } storeClient) siteA freshStore =
        (Outcome.Failed errTimeout,
          { freshStore with Deployments := [newDeployment "site-a" "ns" "v1"] }) ∧
      callsOf (faulty { CreateService := some errTimeout } storeClient) siteA freshStore =
        [Call.GetWebsite siteA, Call.CreateDeployment (newDeployment "site-a" "ns" "v1"),
         Call.CreateService (newService "site-a" "ns")]) ∧
    (Reconcile (faulty { PatchDeployment := some errConflict } storeClient) siteA driftedStore =
        (Outcome.Failed errConflict, driftedStore) ∧
      callsOf (faulty { PatchDeployment := some errConflict } storeClient) siteA driftedStore =
        [Call.GetWebsite siteA, Call.CreateDeployment (newDeployment "site-a" "ns" "v2"),
         Call.CreateService (newService "site-a" "ns"), Call.GetDeployment siteA,
         Call.PatchDeployment (newDeployment "site-a" "ns" "v2")
           (newDeployment "site-a" "ns" "v1")]) :=
  ⟨(Reconcile_surfaces_unrecognised (faulty { GetWebsite := some errForbidden } storeClient)
      siteA freshStore).1 errForbidden freshStore rfl rfl,
   (Reconcile_surfaces_unrecognised (faulty { CreateDeployment := some errForbidden } storeClient)
      siteA freshStore).2.1 (website siteA "v1") freshStore errForbidden freshStore rfl rfl rfl,
   (Reconcile_surfaces_unrecognised (faulty { CreateService := some errTimeout } storeClient)
      siteA freshStore).2.2.1 (website siteA "v1") freshStore none
      { freshStore with Deployments := [newDeployment "site-a" "ns" "v1"] } errTimeout
      { freshStore with Deployments := [newDeployment "site-a" "ns" "v1"] } rfl rfl
      (fun _ h => nomatch h) rfl rfl,
   (Reconcile_surfaces_unrecognised (faulty { PatchDeployment := some errConflict } storeClient)
      siteA driftedStore).2.2.2 (website siteA "v2") driftedStore
      (some (errAlreadyExists "deployments.apps" "site-a")) driftedStore
      (errPortAllocated "site-a") driftedStore (newDeployment "site-a" "ns" "v1") driftedStore
      { Name := "nginx", Image := "abangser/todo-local-storage:v1",
        Ports := [{ ContainerPort := 80 }] } [] errConflict driftedStore
      rfl rfl (fun e1 h => by cases h; rfl) rfl (by decide) rfl rfl (by decide) rfl⟩

/-! ## The get of the child deployment -/

/-- C10 (the code departs from the claim). The drift branch is reached and
the get of the deployment fails with a timeout: `Reconcile` discards that
error, reads `Containers[0]` of the unpopulated deployment and panics; it
does not return the error. -/
theorem Reconcile_drift_get_error_panics :
    IsNotFound errTimeout = false ∧
    ((faulty { GetDeployment := some errTimeout } storeClient).GetDeployment siteA
      driftedStore).1 = Except.error errTimeout ∧
    callsOf (faulty { GetDeployment := some errTimeout } storeClient) siteA driftedStore =
      [Call.GetWebsite siteA, Call.CreateDeployment (newDeployment "site-a" "ns" "v2"),
       Call.CreateService (newService "site-a" "ns"), Call.GetDeployment siteA] ∧
    outcomeOf (faulty { GetDeployment := some errTimeout } storeClient) siteA driftedStore =
      Outcome.Panic ∧
    outcomeOf (faulty { GetDeployment := some errTimeout } storeClient) siteA driftedStore ≠
      Outcome.Failed errTimeout := by
  refine ⟨rfl, rfl, ?_, ?_, ?_⟩ <;> decide

/-- Whatever the client, when the get of the deployment in the drift branch
returns an error, the branch panics and issues no patch. -/
theorem reconcileDrift_get_error {σ : Type} (r : Client σ) (w : Website) (s s1 : σ)
    (e : Error)
    (h : r.GetDeployment { Name := w.Name, Namespace := w.Namespace } s = (Except.error e, s1)) :
    reconcileDrift r w s = (Outcome.Panic, s1) := by
  simp [reconcileDrift, h]

/-! ## Auxiliary lemmas on the store -/

theorem key_eta (key : NamespacedName) :
    ({ Namespace := key.Namespace, Name := key.Name } : NamespacedName) = key := rfl

theorem newDeployment_key (name ns tag : String) :
    (newDeployment name ns tag).key = { Namespace := ns, Name := name } := rfl

theorem newService_key (name ns : String) :
    (newService name ns).key = { Namespace := ns, Name := name } := rfl

theorem findWebsite_key {s : Store} {key : NamespacedName} {w : Website}
    (h : s.findWebsite key = some w) : w.Name = key.Name ∧ w.Namespace = key.Namespace := by
  have := List.find?_some h
  simp only [decide_eq_true_eq, ObjectMeta.key] at this
  subst this
  exact ⟨rfl, rfl⟩

theorem portAllocated_newService (s : Store) (name ns : String) :
    s.portAllocated (newService name ns) = s.Services.any (fun v => v.holdsNodePort 31000) := by
  simp [Store.portAllocated, newService]

theorem find?_filter_ne {α : Type} (key : α → NamespacedName) (l : List α) (k k1 : NamespacedName) :
    (l.filter (fun x => key x ≠ k)).find? (fun x => key x = k1) =
      if k1 = k then none else l.find? (fun x => key x = k1) := by
  induction l with
  | nil => simp
  | cons x xs ih =>
    rw [List.filter_cons]
    by_cases hx : key x = k
    · have h1 : decide (key x ≠ k) = false := by simp [hx]
      rw [h1, if_neg (by simp), ih, List.find?_cons]
      by_cases hk : k1 = k
      · simp [hk]
      · have h2 : decide (key x = k1) = false := by
          simp only [decide_eq_false_iff_not]
          exact fun h => hk (h ▸ hx)
        simp [hk, h2]
    · have h1 : decide (key x ≠ k) = true := by simp [hx]
      rw [h1, if_pos rfl, List.find?_cons, List.find?_cons, ih]
      by_cases hk : k1 = k
      · have h2 : decide (key x = k1) = false := by
          simp only [decide_eq_false_iff_not]
          exact fun h => hx (h.trans hk)
        rw [h2]
      · simp [hk]

theorem find?_updateFirst_same {α : Type} (p : α → Bool) (f : α → α) (l : List α) (d : α)
    (h : l.find? p = some d) (hf : p (f d) = true) :
    (updateFirst p f l).find? p = some (f d) := by
  induction l with
  | nil => simp at h
  | cons x xs ih =>
    by_cases hx : p x = true
    · simp [List.find?, hx] at h
      subst h
      simp [updateFirst, hx, List.find?, hf]
    · simp [List.find?, hx] at h
      simp [updateFirst, hx, List.find?, ih h]

theorem find?_updateFirst_other {α : Type} (p q : α → Bool) (f : α → α) (l : List α)
    (hq : ∀ x, p x = true → q x = false) (hf : ∀ x, q (f x) = q x) :
    (updateFirst p f l).find? q = l.find? q := by
  induction l with
  | nil => rfl
  | cons x xs ih =>
    by_cases hx : p x = true
    · have h1 : q x = false := hq x hx
      have h2 : q (f x) = false := by rw [hf, h1]
      simp [updateFirst, hx, List.find?, h1, h2]
    · by_cases hqx : q x = true
      · simp [updateFirst, hx, List.find?, hqx]
      · simp [updateFirst, hx, List.find?, hqx, ih]

theorem imageDiff_self_tail (l : List Container) :
    (List.zip l l).filterMap
      (fun bo => if bo.1.Image ≠ bo.2.Image then some (bo.2.Name, bo.2.Image) else none) = [] := by
  induction l with
  | nil => rfl
  | cons x xs ih =>
    rw [List.zip_cons_cons, List.filterMap_cons]
    simpa using ih

theorem imageDiff_first (d : Deployment) (c0 : Container) (rest : List Container)
    (image : String) (hc : d.Spec.Template.Spec.Containers = c0 :: rest)
    (hne : c0.Image ≠ image) :
    imageDiff d { d with Spec.Template.Spec.Containers := { c0 with Image := image } :: rest } =
      [(c0.Name, image)] := by
  have := imageDiff_self_tail rest
  simp [imageDiff, hc, List.zip_cons_cons, List.filterMap_cons, hne]
  simpa using this

theorem applyImagePatch_first (d : Deployment) (c0 : Container) (rest : List Container)
    (image : String) (hc : d.Spec.Template.Spec.Containers = c0 :: rest) :
    applyImagePatch [(c0.Name, image)] d =
      { d with Spec.Template.Spec.Containers := { c0 with Image := image } :: rest } := by
  simp [applyImagePatch, hc, setImageByName]

/-- The teardown of a stored deployment and service, as one equation. -/
theorem storeReconcile_teardown (s : Store) (req : NamespacedName) (d : Deployment) (v : Service)
    (hp : s.findWebsite req = none) (hd : s.findDeployment req = some d)
    (hs : s.findService req = some v) :
    Reconcile (traced storeClient) req (s, []) =
      (Outcome.Done,
        { s with
          Deployments := s.Deployments.filter (fun x => x.key ≠ req)
          Services := s.Services.filter (fun x => x.key ≠ req) },
        [Call.GetWebsite req,
         Call.DeleteDeployment (newDeployment req.Name req.Namespace "n/a"),
         Call.DeleteService (newService req.Name req.Namespace)]) := by
  simp only [Store.findWebsite, Store.findDeployment, Store.findService] at hp hd hs
  simp [Reconcile, traced, storeClient, Store.findWebsite, Store.findDeployment,
    Store.findService, hp, hd, hs, IsNotFound, errNotFound, newDeployment_key, newService_key,
    key_eta]

/-- C2. With no parent for `req` and a deployment and a service of that
identity stored, `Reconcile` issues one delete for the deployment and one for
the service of that identity, neither child is stored afterwards, the
stored objects of every other identity are exactly those stored before,
and the result is Done. -/
theorem Reconcile_teardown_deletes_children (s : Store) (req : NamespacedName)
    (d : Deployment) (v : Service)
    (hp : s.findWebsite req = none) (hd : s.findDeployment req = some d)
    (hs : s.findService req = some v) :
    outcomeOf storeClient req s = Outcome.Done ∧
    callsOf storeClient req s =
      [Call.GetWebsite req,
       Call.DeleteDeployment (newDeployment req.Name req.Namespace "n/a"),
       Call.DeleteService (newService req.Name req.Namespace)] ∧
    (newDeployment req.Name req.Namespace "n/a").key = req ∧
    (newService req.Name req.Namespace).key = req ∧
    (stateAfter storeClient req s).findDeployment req = none ∧
    (stateAfter storeClient req s).findService req = none ∧
    (stateAfter storeClient req s).Websites = s.Websites ∧
    (stateAfter storeClient req s).Deployments = s.Deployments.filter (fun x => x.key ≠ req) ∧
    (stateAfter storeClient req s).Services = s.Services.filter (fun x => x.key ≠ req) ∧
    (∀ key, key ≠ req →
      (stateAfter storeClient req s).findDeployment key = s.findDeployment key ∧
      (stateAfter storeClient req s).findService key = s.findService key) := by
  have h := storeReconcile_teardown s req d v hp hd hs
  have ho := (traced_Reconcile storeClient req s []).1
  have hst := (traced_Reconcile storeClient req s []).2
  rw [h] at ho hst
  simp only at ho hst
  refine ⟨ho.symm, ?_, rfl, rfl, ?_, ?_, ?_, ?_, ?_, ?_⟩
  · simp [callsOf, h]
  · rw [stateAfter, ← hst]
    exact (find?_filter_ne (fun x : Deployment => x.key) s.Deployments req req).trans (if_pos rfl)
  · rw [stateAfter, ← hst]
    exact (find?_filter_ne (fun x : Service => x.key) s.Services req req).trans (if_pos rfl)
  · rw [stateAfter, ← hst]
  · rw [stateAfter, ← hst]
  · rw [stateAfter, ← hst]
  · intro key hk
    rw [stateAfter, ← hst]
    constructor
    · exact (find?_filter_ne (fun x : Deployment => x.key) s.Deployments req key).trans (if_neg hk)
    · exact (find?_filter_ne (fun x : Service => x.key) s.Services req key).trans (if_neg hk)

/-- Witness of C2: the deployment and the service of `site-a` without a parent. -/
theorem Reconcile_teardown_deletes_children_witness :
    outcomeOf storeClient siteA orphanStore = Outcome.Done ∧
    (stateAfter storeClient siteA orphanStore).findDeployment siteA = none ∧
    (stateAfter storeClient siteA orphanStore).findService siteA = none :=
  have h := Reconcile_teardown_deletes_children orphanStore siteA
    (newDeployment "site-a" "ns" "v1") (newService "site-a" "ns") rfl rfl rfl
  ⟨h.1, h.2.2.2.2.1, h.2.2.2.2.2.1⟩

/-! ## The parent-found paths on the store -/

theorem store_GetWebsite (s : Store) (req : NamespacedName) (w : Website)
    (hw : s.findWebsite req = some w) : storeClient.GetWebsite req s = (Except.ok w, s) := by
  simp [storeClient, hw]

theorem store_CreateDeployment (s : Store) (obj : Deployment) :
    storeClient.CreateDeployment obj s =
      match s.findDeployment obj.key with
      | some _ => (some (errAlreadyExists "deployments.apps" obj.Name), s)
      | none => (none, { s with Deployments := s.Deployments ++ [obj] }) := rfl

theorem store_CreateService_allocated (s : Store) (name ns : String)
    (h : s.Services.any (fun v => v.holdsNodePort 31000) = true) :
    storeClient.CreateService (newService name ns) s = (some (errPortAllocated name), s) := by
  have := portAllocated_newService s name ns
  simp only [storeClient, this, h, if_true]
  rfl

theorem store_CreateService_free (s : Store) (name ns : String)
    (h : s.Services.any (fun v => v.holdsNodePort 31000) = false) :
    storeClient.CreateService (newService name ns) s =
      match s.findService { Namespace := ns, Name := name } with
      | some _ => (some (errAlreadyExists "services" name), s)
      | none => (none, { s with Services := s.Services ++ [newService name ns] }) := by
  have := portAllocated_newService s name ns
  simp only [storeClient, this, h]
  rfl

theorem errPortAllocated_recognised (name : String) :
    (IsInvalid (errPortAllocated name) &&
      stringsContains (errPortAllocated name).Message "provided port is already allocated") = true := by
  have h : stringsContains (errPortAllocated name).Message "provided port is already allocated"
      = true := by
    rw [stringsContains_iff]
    simp only [errPortAllocated, String.data_append]
    exact (List.suffix_append _ _).isInfix
  rw [h]
  rfl

/-- A service create on the store is recognised as the port-allocated error
exactly when node port 31000 is held by a stored service. -/
theorem store_CreateService_recognised_iff (s : Store) (name ns : String) :
    (∃ e, (storeClient.CreateService (newService name ns) s).1 = some e ∧ IsInvalid e = true ∧
      stringsContains e.Message "provided port is already allocated" = true) ↔
    s.Services.any (fun v => v.holdsNodePort 31000) = true := by
  constructor
  · rintro ⟨e, he, hi, _⟩
    by_contra hpa
    have hpa1 : s.Services.any (fun v => v.holdsNodePort 31000) = false := by simpa using hpa
    rw [store_CreateService_free s name ns hpa1] at he
    split at he
    · simp only [Option.some.injEq] at he
      subst he
      simp [IsInvalid, errAlreadyExists] at hi
    · simp at he
  · intro h
    have hr := errPortAllocated_recognised name
    simp only [Bool.and_eq_true] at hr
    exact ⟨errPortAllocated name, by rw [store_CreateService_allocated s name ns h], hr.1, hr.2⟩

/-- Convergence from absence, as one equation. -/
theorem storeReconcile_fresh (s : Store) (req : NamespacedName) (w : Website)
    (hw : s.findWebsite req = some w) (hd : s.findDeployment req = none)
    (hs : s.findService req = none)
    (hport : s.Services.any (fun v => v.holdsNodePort 31000) = false) :
    Reconcile (traced storeClient) req (s, []) =
      (Outcome.Done,
        { s with
          Deployments := s.Deployments ++ [newDeployment req.Name req.Namespace w.Spec.ImageTag]
          Services := s.Services ++ [newService req.Name req.Namespace] },
        [Call.GetWebsite req,
         Call.CreateDeployment (newDeployment req.Name req.Namespace w.Spec.ImageTag),
         Call.CreateService (newService req.Name req.Namespace)]) := by
  obtain ⟨hn, hns⟩ := findWebsite_key hw
  have h1 := store_GetWebsite s req w hw
  have h2 := store_CreateDeployment s (newDeployment req.Name req.Namespace w.Spec.ImageTag)
  rw [newDeployment_key, key_eta, hd] at h2
  have h3 := store_CreateService_free
    { s with Deployments := s.Deployments ++ [newDeployment req.Name req.Namespace w.Spec.ImageTag] }
    req.Name req.Namespace hport
  have hs1 : Store.findService
    { s with Deployments := s.Deployments ++ [newDeployment req.Name req.Namespace w.Spec.ImageTag] }
    req = none := hs
  rw [key_eta, hs1] at h3
  simp only [Reconcile, reconcileService, traced, h1, hn, hns, h2, h3, List.nil_append,
    List.singleton_append, List.cons_append]

theorem filter_append_new {α : Type} (key : α → NamespacedName) (l : List α) (x : α)
    (k : NamespacedName) (h : l.find? (fun y => key y = k) = none) (hx : key x = k) :
    (l ++ [x]).filter (fun y => key y = k) = [x] := by
  have h1 : l.filter (fun y => key y = k) = [] := by
    rw [List.filter_eq_nil_iff]
    intro a ha
    exact List.find?_eq_none.mp h a ha
  rw [List.filter_append, h1]
  simp [List.filter, hx]

/-! ## Convergence, drift correction, no-op -/

/-- C4. With the parent stored at tag `t`, no deployment and no service of
its identity stored and node port 31000 free, `Reconcile` returns Done;
afterwards exactly one deployment of the identity is stored (replicas 2, one
container with image `abangser/todo-local-storage:t` and container port
80) and exactly one service of the identity (port 80 to node port 31000,
selector the labels of the name); the calls are the parent get and the two
creates, no get of a child and no patch. -/
theorem Reconcile_converges_from_absence (s : Store) (req : NamespacedName) (w : Website)
    (hw : s.findWebsite req = some w) (hd : s.findDeployment req = none)
    (hs : s.findService req = none)
    (hport : s.Services.any (fun v => v.holdsNodePort 31000) = false) :
    outcomeOf storeClient req s = Outcome.Done ∧
    (∃ d, (stateAfter storeClient req s).Deployments.filter (fun x => x.key = req) = [d] ∧
      d.Spec.Replicas = some 2 ∧
      d.Spec.Template.Spec.Containers =
        [{ Name := "nginx", Image := "abangser/todo-local-storage:" ++ w.Spec.ImageTag,
           Ports := [{ ContainerPort := 80 }] }]) ∧
    (∃ v, (stateAfter storeClient req s).Services.filter (fun x => x.key = req) = [v] ∧
      v.Spec.Ports = [{ Port := 80, NodePort := 31000 }] ∧
      v.Spec.Selector = setResourceLabels req.Name) ∧
    callsOf storeClient req s =
      [Call.GetWebsite req,
       Call.CreateDeployment (newDeployment req.Name req.Namespace w.Spec.ImageTag),
       Call.CreateService (newService req.Name req.Namespace)] ∧
    (∀ c ∈ callsOf storeClient req s, c.isChildGet = false ∧ c.isPatch = false) := by
  have h := storeReconcile_fresh s req w hw hd hs hport
  have ho := (traced_Reconcile storeClient req s []).1
  have hst := (traced_Reconcile storeClient req s []).2
  rw [h] at ho hst
  simp only at ho hst
  have hcalls : callsOf storeClient req s =
      [Call.GetWebsite req,
       Call.CreateDeployment (newDeployment req.Name req.Namespace w.Spec.ImageTag),
       Call.CreateService (newService req.Name req.Namespace)] := by
    simp [callsOf, h]
  refine ⟨ho.symm, ⟨newDeployment req.Name req.Namespace w.Spec.ImageTag, ?_, rfl, rfl⟩,
    ⟨newService req.Name req.Namespace, ?_, rfl, rfl⟩, hcalls, ?_⟩
  · rw [stateAfter, ← hst]
    exact filter_append_new (fun x : Deployment => x.key) s.Deployments _ req hd rfl
  · rw [stateAfter, ← hst]
    exact filter_append_new (fun x : Service => x.key) s.Services _ req hs rfl
  · intro c hc
    rw [hcalls] at hc
    simp only [List.mem_cons, List.mem_singleton, List.not_mem_nil, or_false] at hc
    rcases hc with rfl | rfl | rfl <;> exact ⟨rfl, rfl⟩

/-- Witness of C4: parent `site-a` at tag `v1` in an otherwise empty store. -/
theorem Reconcile_converges_from_absence_witness :
    outcomeOf storeClient siteA freshStore = Outcome.Done ∧
    callsOf storeClient siteA freshStore =
      [Call.GetWebsite siteA, Call.CreateDeployment (newDeployment "site-a" "ns" "v1"),
       Call.CreateService (newService "site-a" "ns")] :=
  have h := Reconcile_converges_from_absence freshStore siteA (website siteA "v1") rfl rfl rfl rfl
  ⟨h.1, h.2.2.2.1⟩

theorem findDeployment_key {s : Store} {key : NamespacedName} {d : Deployment}
    (h : s.findDeployment key = some d) : d.key = key := by
  have := List.find?_some h
  simpa using this

/-- The drift branch on the store when the stored deployment is out of date. -/
theorem storeReconcile_drift_patch (s : Store) (req : NamespacedName) (w : Website)
    (d0 : Deployment) (c0 : Container) (rest : List Container)
    (hw : s.findWebsite req = some w) (hd : s.findDeployment req = some d0)
    (hc : d0.Spec.Template.Spec.Containers = c0 :: rest)
    (hne : c0.Image ≠ "abangser/todo-local-storage:" ++ w.Spec.ImageTag)
    (hport : s.Services.any (fun v => v.holdsNodePort 31000) = true) :
    Reconcile (traced storeClient) req (s, []) =
      (Outcome.Done,
        { s with
          Deployments :=
            updateFirst (fun d => d.key = req)
              (applyImagePatch [(c0.Name, "abangser/todo-local-storage:" ++ w.Spec.ImageTag)])
              s.Deployments },
        [Call.GetWebsite req,
         Call.CreateDeployment (newDeployment req.Name req.Namespace w.Spec.ImageTag),
         Call.CreateService (newService req.Name req.Namespace),
         Call.GetDeployment req,
         Call.PatchDeployment
           { d0 with Spec.Template.Spec.Containers :=
               { c0 with Image := "abangser/todo-local-storage:" ++ w.Spec.ImageTag } :: rest }
           d0]) := by
  obtain ⟨hn, hns⟩ := findWebsite_key hw
  have hk := findDeployment_key hd
  have h1 := store_GetWebsite s req w hw
  have h2 := store_CreateDeployment s (newDeployment req.Name req.Namespace w.Spec.ImageTag)
  rw [newDeployment_key, key_eta, hd] at h2
  have h3 := store_CreateService_allocated s req.Name req.Namespace hport
  have h3r := errPortAllocated_recognised req.Name
  have h4 : storeClient.GetDeployment req s = (Except.ok d0, s) := by
    simp [storeClient, hd]
  have h5 : storeClient.PatchDeployment
      { d0 with Spec.Template.Spec.Containers :=
          { c0 with Image := "abangser/todo-local-storage:" ++ w.Spec.ImageTag } :: rest }
      d0 s =
      (none, { s with
        Deployments :=
          updateFirst (fun d => d.key = req)
            (applyImagePatch [(c0.Name, "abangser/todo-local-storage:" ++ w.Spec.ImageTag)])
            s.Deployments }) := by
    have hk1 : ({ d0 with Spec.Template.Spec.Containers :=
        { c0 with Image := "abangser/todo-local-storage:" ++ w.Spec.ImageTag } :: rest } :
        Deployment).key = req := hk
    simp only [storeClient, hk1, hd, imageDiff_first d0 c0 rest _ hc hne]
  simp only [Reconcile, reconcileService, reconcileDrift, traced, h1, hn, hns, h2, h3, h3r, h4, h5,
    hc, key_eta, errAlreadyExists, IsAlreadyExists, List.nil_append, List.singleton_append,
    List.cons_append, decide_True, if_true, ne_eq, hne, not_false_eq_true]

/-- The drift branch on the store when the stored deployment is up to date. -/
theorem storeReconcile_drift_match (s : Store) (req : NamespacedName) (w : Website)
    (d0 : Deployment) (c0 : Container) (rest : List Container)
    (hw : s.findWebsite req = some w) (hd : s.findDeployment req = some d0)
    (hc : d0.Spec.Template.Spec.Containers = c0 :: rest)
    (heq : c0.Image = "abangser/todo-local-storage:" ++ w.Spec.ImageTag)
    (hport : s.Services.any (fun v => v.holdsNodePort 31000) = true) :
    Reconcile (traced storeClient) req (s, []) =
      (Outcome.Done, s,
        [Call.GetWebsite req,
         Call.CreateDeployment (newDeployment req.Name req.Namespace w.Spec.ImageTag),
         Call.CreateService (newService req.Name req.Namespace),
         Call.GetDeployment req]) := by
  obtain ⟨hn, hns⟩ := findWebsite_key hw
  have h1 := store_GetWebsite s req w hw
  have h2 := store_CreateDeployment s (newDeployment req.Name req.Namespace w.Spec.ImageTag)
  rw [newDeployment_key, key_eta, hd] at h2
  have h3 := store_CreateService_allocated s req.Name req.Namespace hport
  have h3r := errPortAllocated_recognised req.Name
  have h4 : storeClient.GetDeployment req s = (Except.ok d0, s) := by
    simp [storeClient, hd]
  simp only [Reconcile, reconcileService, reconcileDrift, traced, h1, hn, hns, h2, h3, h3r, h4,
    hc, key_eta, errAlreadyExists, IsAlreadyExists, List.nil_append, List.singleton_append,
    List.cons_append, decide_True, if_true, ne_eq, heq, not_true_eq_false, if_false]

/-- C5. The store holds a deployment of the parent's identity whose first
container's image differs from the image of the parent's tag, and the
service create reports Invalid with `provided port is already allocated`
(the deployment create then reports AlreadyExists). `Reconcile` issues
exactly one patch and returns Done; afterwards the stored deployment is the
one stored before with the image of its first container replaced: replica
count, labels, selector, the container's name and ports and all further
containers are as before, and so is every other stored object. -/
theorem Reconcile_corrects_drift (s : Store) (req : NamespacedName) (w : Website)
    (d0 : Deployment) (c0 : Container) (rest : List Container)
    (hw : s.findWebsite req = some w) (hd : s.findDeployment req = some d0)
    (hc : d0.Spec.Template.Spec.Containers = c0 :: rest)
    (hne : c0.Image ≠ "abangser/todo-local-storage:" ++ w.Spec.ImageTag)
    (hcs : ∃ e, (storeClient.CreateService (newService req.Name req.Namespace) s).1 = some e ∧
      IsInvalid e = true ∧
      stringsContains e.Message "provided port is already allocated" = true) :
    (∃ e, (storeClient.CreateDeployment
        (newDeployment req.Name req.Namespace w.Spec.ImageTag) s).1 = some e ∧
      IsAlreadyExists e = true) ∧
    outcomeOf storeClient req s = Outcome.Done ∧
    ((callsOf storeClient req s).filter Call.isPatch).length = 1 ∧
    callsOf storeClient req s =
      [Call.GetWebsite req,
       Call.CreateDeployment (newDeployment req.Name req.Namespace w.Spec.ImageTag),
       Call.CreateService (newService req.Name req.Namespace),
       Call.GetDeployment req,
       Call.PatchDeployment
         { d0 with Spec.Template.Spec.Containers :=
             { c0 with Image := "abangser/todo-local-storage:" ++ w.Spec.ImageTag } :: rest }
         d0] ∧
    (∃ d1, (stateAfter storeClient req s).findDeployment req = some d1 ∧
      d1 = { d0 with Spec.Template.Spec.Containers :=
          { c0 with Image := "abangser/todo-local-storage:" ++ w.Spec.ImageTag } :: rest } ∧
      d1.Spec.Template.Spec.Containers.head?.map Container.Image =
        some ("abangser/todo-local-storage:" ++ w.Spec.ImageTag) ∧
      d1.Spec.Replicas = d0.Spec.Replicas ∧
      d1.Labels = d0.Labels ∧
      d1.Spec.Selector = d0.Spec.Selector ∧
      d1.Spec.Template.Labels = d0.Spec.Template.Labels ∧
      d1.Spec.Template.Spec.Containers.head?.map Container.Name = some c0.Name ∧
      d1.Spec.Template.Spec.Containers.head?.map Container.Ports = some c0.Ports ∧
      d1.Spec.Template.Spec.Containers.tail = rest) ∧
    (stateAfter storeClient req s).Websites = s.Websites ∧
    (stateAfter storeClient req s).Services = s.Services ∧
    (∀ key, key ≠ req →
      (stateAfter storeClient req s).findDeployment key = s.findDeployment key) := by
  have hport := (store_CreateService_recognised_iff s req.Name req.Namespace).mp hcs
  have h := storeReconcile_drift_patch s req w d0 c0 rest hw hd hc hne hport
  have ho := (traced_Reconcile storeClient req s []).1
  have hst := (traced_Reconcile storeClient req s []).2
  rw [h] at ho hst
  simp only at ho hst
  have hcalls : callsOf storeClient req s = _ := congrArg (fun x => x.2.2) h
  have hk := findDeployment_key hd
  refine ⟨?_, ho.symm, ?_, hcalls, ?_, ?_, ?_, ?_⟩
  · refine ⟨errAlreadyExists "deployments.apps" req.Name, ?_, rfl⟩
    rw [store_CreateDeployment, newDeployment_key, key_eta, hd]
    rfl
  · rw [hcalls]
    rfl
  · refine ⟨_, ?_, rfl, rfl, rfl, rfl, rfl, rfl, rfl, rfl, rfl⟩
    rw [stateAfter, ← hst]
    have := find?_updateFirst_same (fun d : Deployment => decide (d.key = req))
      (applyImagePatch [(c0.Name, "abangser/todo-local-storage:" ++ w.Spec.ImageTag)])
      s.Deployments d0 hd (by simpa [applyImagePatch] using hk)
    rw [applyImagePatch_first d0 c0 rest _ hc] at this
    exact this
  · rw [stateAfter, ← hst]
  · rw [stateAfter, ← hst]
  · intro key hkey
    rw [stateAfter, ← hst]
    exact find?_updateFirst_other (fun d : Deployment => decide (d.key = req))
      (fun d : Deployment => decide (d.key = key)) _ s.Deployments
      (fun x hx => by
        simp only [decide_eq_true_eq] at hx
        simp only [decide_eq_false_iff_not, hx]
        exact fun h => hkey h.symm)
      (fun x => rfl)

/-- Witness of C5: parent `site-a` moved to tag `v2`, deployment at `v1`. -/
theorem Reconcile_corrects_drift_witness :
    outcomeOf storeClient siteA driftedStore = Outcome.Done ∧
    ((callsOf storeClient siteA driftedStore).filter Call.isPatch).length = 1 ∧
    (stateAfter storeClient siteA driftedStore).Services = driftedStore.Services :=
  have h := Reconcile_corrects_drift driftedStore siteA (website siteA "v2")
    (newDeployment "site-a" "ns" "v1")
    { Name := "nginx", Image := "abangser/todo-local-storage:v1",
      Ports := [{ ContainerPort := 80 }] } [] rfl rfl rfl (by decide)
    ⟨errPortAllocated "site-a", rfl, rfl, by decide⟩
  ⟨h.2.1, h.2.2.1, h.2.2.2.2.2.2.1⟩

/-- C6. The store holds a deployment of the parent's identity whose first
container's image already is the image of the parent's tag, and the drift
branch is reached (the service create reports Invalid with `provided port is
already allocated`). `Reconcile` issues no patch, leaves the store as it
was and returns Done. -/
theorem Reconcile_noop_on_match (s : Store) (req : NamespacedName) (w : Website)
    (d0 : Deployment) (c0 : Container) (rest : List Container)
    (hw : s.findWebsite req = some w) (hd : s.findDeployment req = some d0)
    (hc : d0.Spec.Template.Spec.Containers = c0 :: rest)
    (heq : c0.Image = "abangser/todo-local-storage:" ++ w.Spec.ImageTag)
    (hcs : ∃ e, (storeClient.CreateService (newService req.Name req.Namespace) s).1 = some e ∧
      IsInvalid e = true ∧
      stringsContains e.Message "provided port is already allocated" = true) :
    (∀ c ∈ callsOf storeClient req s, c.isPatch = false) ∧
    callsOf storeClient req s =
      [Call.GetWebsite req,
       Call.CreateDeployment (newDeployment req.Name req.Namespace w.Spec.ImageTag),
       Call.CreateService (newService req.Name req.Namespace),
       Call.GetDeployment req] ∧
    stateAfter storeClient req s = s ∧
    outcomeOf storeClient req s = Outcome.Done := by
  have hport := (store_CreateService_recognised_iff s req.Name req.Namespace).mp hcs
  have h := storeReconcile_drift_match s req w d0 c0 rest hw hd hc heq hport
  have ho := (traced_Reconcile storeClient req s []).1
  have hst := (traced_Reconcile storeClient req s []).2
  rw [h] at ho hst
  simp only at ho hst
  have hcalls : callsOf storeClient req s = _ := congrArg (fun x => x.2.2) h
  refine ⟨?_, hcalls, hst.symm, ho.symm⟩
  intro c hcm
  rw [hcalls] at hcm
  simp only [List.mem_cons, List.mem_singleton, List.not_mem_nil, or_false] at hcm
  rcases hcm with rfl | rfl | rfl | rfl <;> rfl

/-- Witness of C6: parent `site-a` at tag `v1`, deployment and service stored. -/
theorem Reconcile_noop_on_match_witness :
    (∀ c ∈ callsOf storeClient siteA settledStore, c.isPatch = false) ∧
    stateAfter storeClient siteA settledStore = settledStore ∧
    outcomeOf storeClient siteA settledStore = Outcome.Done :=
  have h := Reconcile_noop_on_match settledStore siteA (website siteA "v1")
    (newDeployment "site-a" "ns" "v1")
    { Name := "nginx", Image := "abangser/todo-local-storage:v1",
      Ports := [{ ContainerPort := 80 }] } [] rfl rfl rfl rfl
    ⟨errPortAllocated "site-a", rfl, rfl, by decide⟩
  ⟨h.1, h.2.2.1, h.2.2.2⟩

/-! ## The parent-found path on the store, in general -/

/-- The drift branch leaves websites and services as they are. -/
theorem storeReconcileDrift_frame (w : Website) (s : Store) :
    (reconcileDrift storeClient w s).2.Websites = s.Websites ∧
    (reconcileDrift storeClient w s).2.Services = s.Services := by
  simp only [reconcileDrift, storeClient]
  repeat' split
  all_goals exact ⟨rfl, rfl⟩

/-- A deployment create leaves websites and services as they are. -/
theorem store_CreateDeployment_frame (s : Store) (obj : Deployment) :
    (storeClient.CreateDeployment obj s).2.Websites = s.Websites ∧
    (storeClient.CreateDeployment obj s).2.Services = s.Services := by
  rw [store_CreateDeployment]
  split <;> exact ⟨rfl, rfl⟩

/-- With the parent stored, `Reconcile` on the store is the deployment
create followed by the drift branch (node port 31000 taken) or by the
service create (node port 31000 free). -/
theorem storeReconcile_found (s : Store) (req : NamespacedName) (w : Website)
    (hw : s.findWebsite req = some w) :
    Reconcile storeClient req s =
      if s.Services.any (fun v => v.holdsNodePort 31000) = true then
        reconcileDrift storeClient w
          (storeClient.CreateDeployment
            (newDeployment req.Name req.Namespace w.Spec.ImageTag) s).2
      else
        match s.findService req with
        | some _ =>
          (Outcome.Failed (errAlreadyExists "services" req.Name),
            (storeClient.CreateDeployment
              (newDeployment req.Name req.Namespace w.Spec.ImageTag) s).2)
        | none =>
          (Outcome.Done,
            { (storeClient.CreateDeployment
                (newDeployment req.Name req.Namespace w.Spec.ImageTag) s).2 with
              Services := s.Services ++ [newService req.Name req.Namespace] }) := by
  obtain ⟨hn, hns⟩ := findWebsite_key hw
  have h1 := store_GetWebsite s req w hw
  have hfr := store_CreateDeployment_frame s (newDeployment req.Name req.Namespace w.Spec.ImageTag)
  have hcont : Reconcile storeClient req s =
      reconcileService storeClient w
        (storeClient.CreateDeployment
          (newDeployment req.Name req.Namespace w.Spec.ImageTag) s).2 := by
    simp only [Reconcile, h1, hn, hns]
    rw [store_CreateDeployment]
    cases hfd : s.findDeployment (newDeployment req.Name req.Namespace w.Spec.ImageTag).key <;>
      simp [IsAlreadyExists, errAlreadyExists]
  rw [hcont]
  by_cases hport : s.Services.any (fun v => v.holdsNodePort 31000) = true
  · have hport1 : (storeClient.CreateDeployment
        (newDeployment req.Name req.Namespace w.Spec.ImageTag) s).2.Services.any
        (fun v => v.holdsNodePort 31000) = true := by rw [hfr.2]; exact hport
    have h3 := store_CreateService_allocated _ req.Name req.Namespace hport1
    have h3r := errPortAllocated_recognised req.Name
    simp only [reconcileService, hn, hns, h3, h3r, if_true, hport]
  · have hport0 : s.Services.any (fun v => v.holdsNodePort 31000) = false := by simpa using hport
    have hport1 : (storeClient.CreateDeployment
        (newDeployment req.Name req.Namespace w.Spec.ImageTag) s).2.Services.any
        (fun v => v.holdsNodePort 31000) = false := by rw [hfr.2]; exact hport0
    have h3 := store_CreateService_free _ req.Name req.Namespace hport1
    have hfs : Store.findService (storeClient.CreateDeployment
        (newDeployment req.Name req.Namespace w.Spec.ImageTag) s).2 req = s.findService req := by
      simp only [Store.findService, hfr.2]
    rw [key_eta, hfs] at h3
    simp only [reconcileService, hn, hns, h3, hport0, Bool.false_eq_true, if_false]
    cases hfind : s.findService req with
    | none => simp only [hfr.2]
    | some v => rfl

/-- `Reconcile` on the store never touches the stored websites. -/
theorem storeReconcile_found_websites (s : Store) (req : NamespacedName) (w : Website)
    (hw : s.findWebsite req = some w) :
    (Reconcile storeClient req s).2.Websites = s.Websites := by
  have hfr := store_CreateDeployment_frame s (newDeployment req.Name req.Namespace w.Spec.ImageTag)
  rw [storeReconcile_found s req w hw]
  split
  · rw [(storeReconcileDrift_frame w _).1, hfr.1]
  · split
    · exact hfr.1
    · exact hfr.1

/-- After a Done reconciliation of a stored parent, node port 31000 is held. -/
theorem storeReconcile_found_port (s : Store) (req : NamespacedName) (w : Website)
    (hw : s.findWebsite req = some w) (hdone : (Reconcile storeClient req s).1 = Outcome.Done) :
    (Reconcile storeClient req s).2.Services.any (fun v => v.holdsNodePort 31000) = true := by
  have hfr := store_CreateDeployment_frame s (newDeployment req.Name req.Namespace w.Spec.ImageTag)
  rw [storeReconcile_found s req w hw] at hdone ⊢
  split
  · rename_i hport
    rw [(storeReconcileDrift_frame w _).2, hfr.2]
    exact hport
  · rename_i hport
    rw [if_neg hport] at hdone
    split
    · rename_i v hv
      rw [hv] at hdone
      simp at hdone
    · simp [newService, Service.holdsNodePort]

/-! ## Idempotence -/

/-- C7, counterexample. Parent `site-a` at tag `v2`, its deployment stored at
`v1`, no service stored. The first call leaves the deployment as it is
(AlreadyExists) and creates the service; the second call takes the drift
branch and patches the deployment. Both calls return Done, the store after
the second call differs from the store after the first. -/
theorem Reconcile_not_idempotent_stale_deployment :
    staleNoServiceStore.findWebsite siteA = some (website siteA "v2") ∧
    outcomeOf storeClient siteA staleNoServiceStore = Outcome.Done ∧
    outcomeOf storeClient siteA (stateAfter storeClient siteA staleNoServiceStore) =
      Outcome.Done ∧
    stateAfter storeClient siteA (stateAfter storeClient siteA staleNoServiceStore) ≠
      stateAfter storeClient siteA staleNoServiceStore := by
  decide

/-- With the parent absent, a second teardown meets the children already
deleted and returns an error (the behaviour of C1). -/
theorem Reconcile_second_teardown_fails :
    outcomeOf storeClient siteA orphanStore = Outcome.Done ∧
    outcomeOf storeClient siteA (stateAfter storeClient siteA orphanStore) =
      Outcome.Failed
        (fmtErrorf "deployments.apps \"site-a\" not found/nservices \"site-a\" not found") := by
  decide

/-- C7, amended. With the parent stored: if the first call returns Done and
leaves the parent's deployment with the image of the parent's tag in its
first container, a second call returns Done and leaves the store as the
first call left it. -/
theorem Reconcile_idempotent_when_deployment_current (s : Store) (req : NamespacedName)
    (w : Website) (d : Deployment) (c0 : Container) (rest : List Container)
    (hw : s.findWebsite req = some w)
    (hdone : outcomeOf storeClient req s = Outcome.Done)
    (hd : (stateAfter storeClient req s).findDeployment req = some d)
    (hc : d.Spec.Template.Spec.Containers = c0 :: rest)
    (heq : c0.Image = "abangser/todo-local-storage:" ++ w.Spec.ImageTag) :
    outcomeOf storeClient req (stateAfter storeClient req s) = Outcome.Done ∧
    stateAfter storeClient req (stateAfter storeClient req s) = stateAfter storeClient req s := by
  have hw1 : (stateAfter storeClient req s).findWebsite req = some w := by
    simp only [Store.findWebsite, stateAfter, storeReconcile_found_websites s req w hw]
    exact hw
  have hport1 := storeReconcile_found_port s req w hw hdone
  have h := storeReconcile_drift_match (stateAfter storeClient req s) req w d c0 rest hw1 hd hc heq
    hport1
  have ho := (traced_Reconcile storeClient req (stateAfter storeClient req s) []).1
  have hst := (traced_Reconcile storeClient req (stateAfter storeClient req s) []).2
  rw [h] at ho hst
  exact ⟨ho.symm, hst.symm⟩

/-- Witness of C7 (amended): the first call creates both children. -/
theorem Reconcile_idempotent_when_deployment_current_witness :
    outcomeOf storeClient siteA freshStore = Outcome.Done ∧
    outcomeOf storeClient siteA (stateAfter storeClient siteA freshStore) = Outcome.Done ∧
    stateAfter storeClient siteA (stateAfter storeClient siteA freshStore) =
      stateAfter storeClient siteA freshStore :=
  have h := Reconcile_idempotent_when_deployment_current freshStore siteA (website siteA "v1")
    (newDeployment "site-a" "ns" "v1")
    { Name := "nginx", Image := "abangser/todo-local-storage:v1",
      Ports := [{ ContainerPort := 80 }] } [] rfl (by decide) (by decide) rfl rfl
  ⟨by decide, h.1, h.2⟩

/-! ## One service per live parent -/

/-- C8, counterexample. Parents `site-a` and `site-b`; the service of
`site-a` holds node port 31000. Reconciling `site-b` has its service create
rejected for the port, takes the drift branch and returns Done; no service of
`site-b` is stored afterwards. -/
theorem Reconcile_done_without_service :
    twoSitesStore.findWebsite siteB = some (website siteB "v1") ∧
    (storeClient.CreateService (newService "site-b" "ns")
      (storeClient.CreateDeployment (newDeployment "site-b" "ns" "v1") twoSitesStore).2).1 =
      some (errPortAllocated "site-b") ∧
    outcomeOf storeClient siteB twoSitesStore = Outcome.Done ∧
    (stateAfter storeClient siteB twoSitesStore).findService siteB = none := by
  decide

/-- C8, amended. With the parent stored and node port 31000 held by no
service of another identity: if `Reconcile` returns Done, a service of the
parent's identity is stored afterwards. -/
theorem Reconcile_done_has_service (s : Store) (req : NamespacedName) (w : Website)
    (hw : s.findWebsite req = some w)
    (hown : ∀ v ∈ s.Services, v.holdsNodePort 31000 = true → v.key = req)
    (hdone : outcomeOf storeClient req s = Outcome.Done) :
    ∃ v, (stateAfter storeClient req s).findService req = some v ∧ v.key = req := by
  have hfr := store_CreateDeployment_frame s (newDeployment req.Name req.Namespace w.Spec.ImageTag)
  have hex : ((stateAfter storeClient req s).findService req).isSome = true := by
    simp only [outcomeOf] at hdone
    simp only [stateAfter, Store.findService]
    rw [storeReconcile_found s req w hw] at hdone ⊢
    split
    · rename_i hport
      rw [(storeReconcileDrift_frame w _).2, hfr.2, List.find?_isSome]
      obtain ⟨v, hv, hh⟩ := List.any_eq_true.mp hport
      exact ⟨v, hv, by simpa using hown v hv hh⟩
    · rename_i hport
      rw [if_neg hport] at hdone
      split
      · rename_i v hv
        rw [hv] at hdone
        simp at hdone
      · rw [List.find?_isSome]
        exact ⟨newService req.Name req.Namespace, by simp, by simp [newService_key, key_eta]⟩
  obtain ⟨v, hv⟩ := Option.isSome_iff_exists.mp hex
  refine ⟨v, hv, ?_⟩
  have := List.find?_some hv
  simpa using this

/-- Witness of C8 (amended): parent `site-a` in an otherwise empty store. -/
theorem Reconcile_done_has_service_witness :
    ∃ v, (stateAfter storeClient siteA freshStore).findService siteA = some v ∧ v.key = siteA :=
  Reconcile_done_has_service freshStore siteA (website siteA "v1") rfl
    (fun _ h => nomatch h) (by decide)

/-! ## Declared shapes of the children -/

/-- C11. For every name, namespace and image tag, `newDeployment` has the
identity `(namespace, name)`, two replicas, exactly one container, named
`nginx`, with image `abangser/todo-local-storage:` followed by the tag and
exactly one container port, 80; its labels, its selector and its pod-template
labels are `setResourceLabels name`. The tag is not inspected: the empty tag
gives the image `abangser/todo-local-storage:`. -/
theorem newDeployment_shape (name ns imageTag : String) :
    (newDeployment name ns imageTag).key = { Namespace := ns, Name := name } ∧
    (newDeployment name ns imageTag).Spec.Replicas = some 2 ∧
    (newDeployment name ns imageTag).Spec.Template.Spec.Containers.length = 1 ∧
    (newDeployment name ns imageTag).Spec.Template.Spec.Containers.map Container.Name =
      ["nginx"] ∧
    (newDeployment name ns imageTag).Spec.Template.Spec.Containers.map Container.Image =
      ["abangser/todo-local-storage:" ++ imageTag] ∧
    (newDeployment name ns imageTag).Spec.Template.Spec.Containers.map Container.Ports =
      [[{ ContainerPort := 80 }]] ∧
    (newDeployment name ns imageTag).Labels = setResourceLabels name ∧
    (newDeployment name ns imageTag).Spec.Selector =
      some { MatchLabels := setResourceLabels name } ∧
    (newDeployment name ns imageTag).Spec.Template.Labels = setResourceLabels name ∧
    (newDeployment name ns "").Spec.Template.Spec.Containers.map Container.Image =
      ["abangser/todo-local-storage:"] := by
  refine ⟨rfl, rfl, rfl, rfl, rfl, rfl, rfl, rfl, rfl, ?_⟩
  simp [newDeployment]

theorem setResourceLabels_get (n k : String) :
    Labels.get (setResourceLabels n) k =
      if k = "website" then some n else if k = "type" then some "Website" else none := by
  by_cases h1 : k = "website"
  · subst h1
    simp [Labels.get, setResourceLabels]
  · by_cases h2 : k = "type"
    · subst h2
      simp [Labels.get, setResourceLabels]
    · have h1' : ¬ "website" = k := fun h => h1 h.symm
      have h2' : ¬ "type" = k := fun h => h2 h.symm
      simp [Labels.get, setResourceLabels, h1, h2, h1', h2']

theorem selectorMatches_setResourceLabels (name : String) :
    selectorMatches (setResourceLabels name) (setResourceLabels name) = true := by
  simp only [selectorMatches, List.all_eq_true, decide_eq_true_eq]
  intro kv hkv
  simp only [setResourceLabels, List.mem_cons, List.mem_singleton, List.not_mem_nil,
    or_false] at hkv
  rcases hkv with rfl | rfl
  · rw [setResourceLabels_get]; simp
  · rw [setResourceLabels_get]; simp

/-- C12. For every name and namespace, `newService` has the identity
`(namespace, name)`, exactly one port mapping (service port 80, node port
31000) and type `NodePort`; its labels and its selector are
`setResourceLabels name`, the label set `newDeployment` puts on its pod
template for every tag, so the selector matches those pods. -/
theorem newService_shape (name ns t : String) :
    (newService name ns).key = { Namespace := ns, Name := name } ∧
    (newService name ns).Spec.Ports = [{ Port := 80, NodePort := 31000 }] ∧
    (newService name ns).Spec.Type_ = ServiceTypeNodePort ∧
    ServiceTypeNodePort = "NodePort" ∧
    (newService name ns).Labels = setResourceLabels name ∧
    (newService name ns).Spec.Selector = setResourceLabels name ∧
    (newService name ns).Spec.Selector = (newDeployment name ns t).Spec.Template.Labels ∧
    selectorMatches (newService name ns).Spec.Selector
      (newDeployment name ns t).Spec.Template.Labels = true :=
  ⟨rfl, rfl, rfl, rfl, rfl, rfl, rfl, selectorMatches_setResourceLabels name⟩

/-! ## The ownership labels -/

/-- C13. `setResourceLabels n` is the two-entry mapping with `n` under
`website` and `Website` under `type`; equal names give equal mappings; for
names `a ≠ b` the mappings differ, and they differ under the key `website`
and under no other key. -/
theorem setResourceLabels_injective :
    (∀ n, setResourceLabels n = [("website", n), ("type", "Website")]) ∧
    (∀ n k, Labels.get (setResourceLabels n) k =
      if k = "website" then some n else if k = "type" then some "Website" else none) ∧
    (∀ a b, a = b → setResourceLabels a = setResourceLabels b) ∧
    (∀ a b, a ≠ b →
      setResourceLabels a ≠ setResourceLabels b ∧
      ∀ k, Labels.get (setResourceLabels a) k ≠ Labels.get (setResourceLabels b) k ↔
        k = "website") := by
  refine ⟨fun _ => rfl, setResourceLabels_get, fun a b h => by rw [h], ?_⟩
  intro a b hab
  constructor
  · intro h
    simp only [setResourceLabels, List.cons.injEq, Prod.mk.injEq, true_and, and_true] at h
    exact hab h
  · intro k
    rw [setResourceLabels_get, setResourceLabels_get]
    by_cases h1 : k = "website"
    · simp [h1, hab]
    · by_cases h2 : k = "type" <;> simp [h1, h2]

/-- Witness of C13: the names `site-a` and `site-b`. -/
theorem setResourceLabels_injective_witness :
    setResourceLabels "site-a" ≠ setResourceLabels "site-b" ∧
    Labels.get (setResourceLabels "site-a") "website" ≠
      Labels.get (setResourceLabels "site-b") "website" :=
  have h := setResourceLabels_injective.2.2.2 "site-a" "site-b" (by decide)
  ⟨h.1, (h.2 "website").mpr rfl⟩

/-! ## When the drift branch is entered -/

/-- The drift branch on a recording client issues the get of the deployment
first. -/
theorem traced_reconcileDrift_calls {σ : Type} (r : Client σ) (w : Website) (s : σ)
    (l : List Call) :
    ∃ l1, (reconcileDrift (traced r) w (s, l)).2.2 =
      l ++ Call.GetDeployment { Name := w.Name, Namespace := w.Namespace } :: l1 := by
  simp only [reconcileDrift, traced]
  repeat' split
  all_goals first
    | exact ⟨[], rfl⟩
    | exact ⟨_, List.append_assoc _ _ _⟩

/-- C14. Once the service create is reached, `Reconcile` enters the drift
branch (issues the get of the deployment) if and only if the service create
returns an error that is `Invalid` and whose message contains
`provided port is already allocated`. Any other error of the service
create is returned as Failed after exactly the parent get and the two
creates: no get of a child and no patch is issued. -/
theorem Reconcile_drift_iff {σ : Type} (r : Client σ) (req : NamespacedName) (s : σ)
    (w : Website) (s1 : σ) (cd : Option Error) (s2 : σ) (cs : Option Error) (s3 : σ)
    (hget : r.GetWebsite req s = (Except.ok w, s1))
    (hcd : r.CreateDeployment (newDeployment w.Name w.Namespace w.Spec.ImageTag) s1 = (cd, s2))
    (hok : ∀ e1, cd = some e1 → IsAlreadyExists e1 = true)
    (hcs : r.CreateService (newService w.Name w.Namespace) s2 = (cs, s3)) :
    ((callsOf r req s).any Call.isChildGet = true ↔
      ∃ e, cs = some e ∧ IsInvalid e = true ∧
        stringsContains e.Message "provided port is already allocated" = true) ∧
    (∀ e, cs = some e → IsInvalid e = true →
      stringsContains e.Message "provided port is already allocated" = true →
      Reconcile r req s = reconcileDrift r w s3) ∧
    (∀ e, cs = some e →
      ¬ (IsInvalid e = true ∧
        stringsContains e.Message "provided port is already allocated" = true) →
      Reconcile r req s = (Outcome.Failed e, s3) ∧
      callsOf r req s =
        [Call.GetWebsite req,
         Call.CreateDeployment (newDeployment w.Name w.Namespace w.Spec.ImageTag),
         Call.CreateService (newService w.Name w.Namespace)] ∧
      ∀ c ∈ callsOf r req s, c.isChildGet = false ∧ c.isPatch = false) := by
  have hstep : Reconcile r req s = reconcileService r w s2 := by
    cases cd with
    | none => simp [Reconcile, hget, hcd]
    | some e1 => simp [Reconcile, hget, hcd, hok e1 rfl]
  have hstepT : Reconcile (traced r) req (s, []) =
      reconcileService (traced r) w
        (s2, [Call.GetWebsite req,
          Call.CreateDeployment (newDeployment w.Name w.Namespace w.Spec.ImageTag)]) := by
    cases cd with
    | none => simp [Reconcile, traced, hget, hcd]
    | some e1 => simp [Reconcile, traced, hget, hcd, hok e1 rfl]
  have hplain : ∀ e, cs = some e →
      ¬ (IsInvalid e = true ∧
        stringsContains e.Message "provided port is already allocated" = true) →
      callsOf r req s =
        [Call.GetWebsite req,
         Call.CreateDeployment (newDeployment w.Name w.Namespace w.Spec.ImageTag),
         Call.CreateService (newService w.Name w.Namespace)] := by
    intro e he hn
    subst he
    have hn1 : (IsInvalid e &&
        stringsContains e.Message "provided port is already allocated") = false := by
      simpa using hn
    rw [callsOf, hstepT]
    simp [reconcileService, traced, hcs, hn1]
  refine ⟨?_, ?_, ?_⟩
  · constructor
    · intro hany
      cases cs with
      | none =>
        rw [callsOf, hstepT] at hany
        simp [reconcileService, traced, hcs, Call.isChildGet] at hany
      | some e =>
        by_contra hcon
        have hn : ¬ (IsInvalid e = true ∧
            stringsContains e.Message "provided port is already allocated" = true) :=
          fun h => hcon ⟨e, rfl, h.1, h.2⟩
        rw [hplain e rfl hn] at hany
        simp [Call.isChildGet] at hany
    · rintro ⟨e, he, hi, hc⟩
      subst he
      obtain ⟨l1, hl1⟩ := traced_reconcileDrift_calls r w s3
        [Call.GetWebsite req,
         Call.CreateDeployment (newDeployment w.Name w.Namespace w.Spec.ImageTag),
         Call.CreateService (newService w.Name w.Namespace)]
      have : callsOf r req s =
          [Call.GetWebsite req,
           Call.CreateDeployment (newDeployment w.Name w.Namespace w.Spec.ImageTag),
           Call.CreateService (newService w.Name w.Namespace)] ++
          Call.GetDeployment { Namespace := w.Namespace, Name := w.Name } :: l1 := by
        rw [callsOf, hstepT]
        simp only [reconcileService, traced, hcs, hi, hc, Bool.and_self, if_true,
          List.cons_append, List.nil_append]
        exact hl1
      rw [this]
      simp [Call.isChildGet]
  · intro e he hi hc
    subst he
    simp [hstep, reconcileService, hcs, hi, hc]
  · intro e he hn
    have hc := hplain e he hn
    subst he
    have hn1 : (IsInvalid e &&
        stringsContains e.Message "provided port is already allocated") = false := by
      simpa using hn
    refine ⟨by simp [hstep, reconcileService, hcs, hn1], hc, ?_⟩
    intro c hcm
    rw [hc] at hcm
    simp only [List.mem_cons, List.mem_singleton, List.not_mem_nil, or_false] at hcm
    rcases hcm with rfl | rfl | rfl <;> exact ⟨rfl, rfl⟩

/-- Witness of C14: a service create failing with AlreadyExists, with an
`Invalid` error of another text, and with the text under another reason
all end the attempt; the platform's port-allocated error enters the drift
branch. -/
theorem Reconcile_drift_iff_witness :
    Reconcile (faulty { CreateService := some (errAlreadyExists "services" "site-a") }
        storeClient) siteA freshStore =
      (Outcome.Failed (errAlreadyExists "services" "site-a"),
        { freshStore with Deployments := [newDeployment "site-a" "ns" "v1"] }) ∧
    Reconcile (faulty { CreateService := some errInvalidOther } storeClient) siteA freshStore =
      (Outcome.Failed errInvalidOther,
        { freshStore with Deployments := [newDeployment "site-a" "ns" "v1"] }) ∧
    Reconcile (faulty { CreateService := some errForbiddenPort } storeClient) siteA freshStore =
      (Outcome.Failed errForbiddenPort,
        { freshStore with Deployments := [newDeployment "site-a" "ns" "v1"] }) ∧
    (callsOf (faulty { CreateService := some errForbiddenPort } storeClient) siteA
      freshStore).any Call.isChildGet = false ∧
    (callsOf storeClient siteA driftedStore).any Call.isChildGet = true :=
  ⟨((Reconcile_drift_iff
      (faulty { CreateService := some (errAlreadyExists "services" "site-a") } storeClient)
      siteA freshStore (website siteA "v1") freshStore none
      { freshStore with Deployments := [newDeployment "site-a" "ns" "v1"] }
      (some (errAlreadyExists "services" "site-a"))
      { freshStore with Deployments := [newDeployment "site-a" "ns" "v1"] }
      rfl rfl (fun _ h => nomatch h) rfl).2.2 _ rfl (by decide)).1,
   ((Reconcile_drift_iff (faulty { CreateService := some errInvalidOther } storeClient)
      siteA freshStore (website siteA "v1") freshStore none
      { freshStore with Deployments := [newDeployment "site-a" "ns" "v1"] }
      (some errInvalidOther)
      { freshStore with Deployments := [newDeployment "site-a" "ns" "v1"] }
      rfl rfl (fun _ h => nomatch h) rfl).2.2 _ rfl (by decide)).1,
   ((Reconcile_drift_iff (faulty { CreateService := some errForbiddenPort } storeClient)
      siteA freshStore (website siteA "v1") freshStore none
      { freshStore with Deployments := [newDeployment "site-a" "ns" "v1"] }
      (some errForbiddenPort)
      { freshStore with Deployments := [newDeployment "site-a" "ns" "v1"] }
      rfl rfl (fun _ h => nomatch h) rfl).2.2 _ rfl (by decide)).1,
   by
    have h := (Reconcile_drift_iff (faulty { CreateService := some errForbiddenPort } storeClient)
      siteA freshStore (website siteA "v1") freshStore none
      { freshStore with Deployments := [newDeployment "site-a" "ns" "v1"] }
      (some errForbiddenPort)
      { freshStore with Deployments := [newDeployment "site-a" "ns" "v1"] }
      rfl rfl (fun _ h => nomatch h) rfl).1
    rw [Bool.eq_false_iff]
    intro hany
    obtain ⟨e, he, hi, _⟩ := h.mp hany
    cases he
    exact absurd hi (by decide),
   (Reconcile_drift_iff storeClient siteA driftedStore (website siteA "v2") driftedStore
      (some (errAlreadyExists "deployments.apps" "site-a")) driftedStore
      (some (errPortAllocated "site-a")) driftedStore
      rfl rfl (fun e1 h => by cases h; rfl) rfl).1.mpr
      ⟨errPortAllocated "site-a", rfl, rfl, by decide⟩⟩

/-! ## The deployment-already-exists path -/

/-- The path on the store where the deployment exists and the service is
created, as one equation. -/
theorem storeReconcile_existing_deployment (s : Store) (req : NamespacedName) (w : Website)
    (d0 : Deployment)
    (hw : s.findWebsite req = some w) (hd : s.findDeployment req = some d0)
    (hs : s.findService req = none)
    (hport : s.Services.any (fun v => v.holdsNodePort 31000) = false) :
    Reconcile (traced storeClient) req (s, []) =
      (Outcome.Done,
        { s with Services := s.Services ++ [newService req.Name req.Namespace] },
        [Call.GetWebsite req,
         Call.CreateDeployment (newDeployment req.Name req.Namespace w.Spec.ImageTag),
         Call.CreateService (newService req.Name req.Namespace)]) := by
  obtain ⟨hn, hns⟩ := findWebsite_key hw
  have h1 := store_GetWebsite s req w hw
  have h2 := store_CreateDeployment s (newDeployment req.Name req.Namespace w.Spec.ImageTag)
  rw [newDeployment_key, key_eta, hd] at h2
  have h3 := store_CreateService_free s req.Name req.Namespace hport
  rw [key_eta, hs] at h3
  simp only [Reconcile, reconcileService, traced, h1, hn, hns, h2, h3, errAlreadyExists,
    IsAlreadyExists, decide_True, if_true, List.nil_append, List.singleton_append,
    List.cons_append]

/-- C15. On the store, when the deployment create reports AlreadyExists and
the service create succeeds, `Reconcile` returns Done after exactly the
parent get and the two creates: no get of a child, no patch and no delete
is issued, and the stored deployments, the parent's among them, are exactly
as before, whatever the image of the existing deployment. -/
theorem Reconcile_existing_deployment_untouched (s : Store) (req : NamespacedName)
    (w : Website)
    (hw : s.findWebsite req = some w)
    (hcd : ∃ e, (storeClient.CreateDeployment
        (newDeployment req.Name req.Namespace w.Spec.ImageTag) s).1 = some e ∧
      IsAlreadyExists e = true)
    (hcs : (storeClient.CreateService (newService req.Name req.Namespace) s).1 = none) :
    outcomeOf storeClient req s = Outcome.Done ∧
    callsOf storeClient req s =
      [Call.GetWebsite req,
       Call.CreateDeployment (newDeployment req.Name req.Namespace w.Spec.ImageTag),
       Call.CreateService (newService req.Name req.Namespace)] ∧
    (∀ c ∈ callsOf storeClient req s,
      c.isChildGet = false ∧ c.isPatch = false ∧ c.isDelete = false) ∧
    (∃ d0, s.findDeployment req = some d0 ∧
      (stateAfter storeClient req s).findDeployment req = some d0) ∧
    (stateAfter storeClient req s).Deployments = s.Deployments := by
  obtain ⟨e, he, _⟩ := hcd
  have hd : ∃ d0, s.findDeployment req = some d0 := by
    rw [store_CreateDeployment, newDeployment_key, key_eta] at he
    cases hfd : s.findDeployment req with
    | none => rw [hfd] at he; simp at he
    | some d0 => exact ⟨d0, rfl⟩
  obtain ⟨d0, hd⟩ := hd
  have hport : s.Services.any (fun v => v.holdsNodePort 31000) = false := by
    by_contra hcon
    have hpa : s.Services.any (fun v => v.holdsNodePort 31000) = true := by simpa using hcon
    rw [store_CreateService_allocated s req.Name req.Namespace hpa] at hcs
    simp at hcs
  have hs : s.findService req = none := by
    rw [store_CreateService_free s req.Name req.Namespace hport, key_eta] at hcs
    cases hfs : s.findService req with
    | none => rfl
    | some v => rw [hfs] at hcs; simp at hcs
  have h := storeReconcile_existing_deployment s req w d0 hw hd hs hport
  have ho := (traced_Reconcile storeClient req s []).1
  have hst := (traced_Reconcile storeClient req s []).2
  rw [h] at ho hst
  simp only at ho hst
  have hcalls : callsOf storeClient req s = _ := congrArg (fun x => x.2.2) h
  refine ⟨ho.symm, hcalls, ?_, ⟨d0, hd, ?_⟩, ?_⟩
  · intro c hcm
    rw [hcalls] at hcm
    simp only [List.mem_cons, List.mem_singleton, List.not_mem_nil, or_false] at hcm
    rcases hcm with rfl | rfl | rfl <;> exact ⟨rfl, rfl, rfl⟩
  · rw [stateAfter, ← hst]
    exact hd
  · rw [stateAfter, ← hst]

/-- Witness of C15: parent `site-a` at tag `v2`, its deployment stored at
`v1`, no service stored. -/
theorem Reconcile_existing_deployment_untouched_witness :
    outcomeOf storeClient siteA staleNoServiceStore = Outcome.Done ∧
    (stateAfter storeClient siteA staleNoServiceStore).findDeployment siteA =
      some (newDeployment "site-a" "ns" "v1") ∧
    (newDeployment "site-a" "ns" "v1").Spec.Template.Spec.Containers.map Container.Image ≠
      [driftDesiredImage (website siteA "v2")] := by
  have h := Reconcile_existing_deployment_untouched staleNoServiceStore siteA
    (website siteA "v2") rfl ⟨errAlreadyExists "deployments.apps" "site-a", rfl, rfl⟩ rfl
  obtain ⟨d0, hd0, hd1⟩ := h.2.2.2.1
  have hd : d0 = newDeployment "site-a" "ns" "v1" := by
    have : staleNoServiceStore.findDeployment siteA = some (newDeployment "site-a" "ns" "v1") :=
      rfl
    rw [this] at hd0
    exact (Option.some.inj hd0).symm
  exact ⟨h.1, hd ▸ hd1, by decide⟩

/-! ## The drift branch finds a deployment -/

/-- After the deployment create, the store holds a deployment of the
identity: the one stored before, or the one just created. -/
theorem store_CreateDeployment_found (s : Store) (name ns tag : String) :
    ∃ d, (storeClient.CreateDeployment (newDeployment name ns tag) s).2.findDeployment
        { Namespace := ns, Name := name } = some d ∧
      (d ∈ s.Deployments ∨ d = newDeployment name ns tag) := by
  rw [store_CreateDeployment, newDeployment_key]
  cases hfd : s.findDeployment { Namespace := ns, Name := name } with
  | some d0 =>
    exact ⟨d0, hfd, Or.inl (List.mem_of_find?_eq_some hfd)⟩
  | none =>
    refine ⟨newDeployment name ns tag, ?_, Or.inr rfl⟩
    simp only [Store.findDeployment] at hfd ⊢
    rw [List.find?_append, hfd]
    simp [newDeployment_key]

theorem store_GetDeployment_found (s : Store) (key : NamespacedName) (d : Deployment)
    (h : s.findDeployment key = some d) :
    storeClient.GetDeployment key s = (Except.ok d, s) := by
  simp [storeClient, h]

/-- On the store, the drift branch returns Done whenever the deployment of
the parent's identity is stored with at least one container. -/
theorem storeReconcileDrift_done (w : Website) (s : Store) (d : Deployment) (c0 : Container)
    (rest : List Container)
    (hd : s.findDeployment { Namespace := w.Namespace, Name := w.Name } = some d)
    (hc : d.Spec.Template.Spec.Containers = c0 :: rest) :
    (reconcileDrift storeClient w s).1 = Outcome.Done := by
  have hk := findDeployment_key hd
  have h4 : storeClient.GetDeployment { Namespace := w.Namespace, Name := w.Name } s =
      (Except.ok d, s) := by
    simp [storeClient, hd]
  by_cases himg : c0.Image = "abangser/todo-local-storage:" ++ w.Spec.ImageTag
  · simp only [reconcileDrift, h4, hc, ne_eq, himg, not_true_eq_false, if_false]
  · have hk1 : ({ d with Spec.Template.Spec.Containers :=
        { c0 with Image := "abangser/todo-local-storage:" ++ w.Spec.ImageTag } :: rest } :
        Deployment).key = { Namespace := w.Namespace, Name := w.Name } := hk
    have h5 : (storeClient.PatchDeployment
        { d with Spec.Template.Spec.Containers :=
            { c0 with Image := "abangser/todo-local-storage:" ++ w.Spec.ImageTag } :: rest }
        d s).1 = none := by
      simp only [storeClient, hk1, hd]
    simp only [reconcileDrift, h4, hc, ne_eq, himg, not_false_eq_true, if_true, h5]

/-- C16. On the store (which nothing else mutates during the attempt), with
every stored deployment holding at least one container: whenever the drift
branch is reached, the deployment create before it either succeeded or
reported AlreadyExists, a deployment of the parent's identity is stored, the
get returns it, it has a first container, and `Reconcile` does not panic. -/
theorem Reconcile_drift_finds_deployment (s : Store) (req : NamespacedName) (w : Website)
    (hw : s.findWebsite req = some w)
    (hall : ∀ d ∈ s.Deployments, d.Spec.Template.Spec.Containers ≠ [])
    (hdrift : ∃ e, (storeClient.CreateService (newService req.Name req.Namespace)
        (storeClient.CreateDeployment
          (newDeployment req.Name req.Namespace w.Spec.ImageTag) s).2).1 = some e ∧
      IsInvalid e = true ∧
      stringsContains e.Message "provided port is already allocated" = true) :
    ((storeClient.CreateDeployment
        (newDeployment req.Name req.Namespace w.Spec.ImageTag) s).1 = none ∨
      ∃ e, (storeClient.CreateDeployment
        (newDeployment req.Name req.Namespace w.Spec.ImageTag) s).1 = some e ∧
        IsAlreadyExists e = true) ∧
    (∃ d c0 rest,
      (storeClient.CreateDeployment
        (newDeployment req.Name req.Namespace w.Spec.ImageTag) s).2.findDeployment req =
        some d ∧
      (storeClient.GetDeployment req
        (storeClient.CreateDeployment
          (newDeployment req.Name req.Namespace w.Spec.ImageTag) s).2).1 = Except.ok d ∧
      d.Spec.Template.Spec.Containers = c0 :: rest) ∧
    Reconcile storeClient req s =
      reconcileDrift storeClient w
        (storeClient.CreateDeployment
          (newDeployment req.Name req.Namespace w.Spec.ImageTag) s).2 ∧
    outcomeOf storeClient req s ≠ Outcome.Panic ∧
    outcomeOf storeClient req s = Outcome.Done := by
  obtain ⟨hn, hns⟩ := findWebsite_key hw
  have hfr := store_CreateDeployment_frame s (newDeployment req.Name req.Namespace w.Spec.ImageTag)
  have hport1 := (store_CreateService_recognised_iff _ req.Name req.Namespace).mp hdrift
  have hport : s.Services.any (fun v => v.holdsNodePort 31000) = true := by
    rw [hfr.2] at hport1
    exact hport1
  have hrec := storeReconcile_found s req w hw
  rw [if_pos hport] at hrec
  obtain ⟨d, hd, hmem⟩ := store_CreateDeployment_found s req.Name req.Namespace w.Spec.ImageTag
  rw [key_eta] at hd
  have hne : d.Spec.Template.Spec.Containers ≠ [] := by
    rcases hmem with hm | rfl
    · exact hall d hm
    · simp [newDeployment]
  obtain ⟨c0, rest, hc⟩ := List.exists_cons_of_ne_nil hne
  have hd' : (storeClient.CreateDeployment
      (newDeployment req.Name req.Namespace w.Spec.ImageTag) s).2.findDeployment
      { Namespace := w.Namespace, Name := w.Name } = some d := by
    rw [hn, hns, key_eta]
    exact hd
  have hdone : outcomeOf storeClient req s = Outcome.Done := by
    rw [outcomeOf, hrec]
    exact storeReconcileDrift_done w _ d c0 rest hd' hc
  refine ⟨?_, ⟨d, c0, rest, hd, ?_, hc⟩, hrec, ?_, hdone⟩
  · rw [store_CreateDeployment]
    cases s.findDeployment (newDeployment req.Name req.Namespace w.Spec.ImageTag).key with
    | none => exact Or.inl rfl
    | some d0 => exact Or.inr ⟨_, rfl, rfl⟩
  · rw [store_GetDeployment_found _ _ _ hd]
  · rw [hdone]
    exact fun h => nomatch h

/-- Witness of C16: reconciling `site-b` while the service of `site-a` holds
the node port; the deployment found is the one just created. -/
theorem Reconcile_drift_finds_deployment_witness :
    outcomeOf storeClient siteB twoSitesStore ≠ Outcome.Panic ∧
    (callsOf storeClient siteB twoSitesStore).any Call.isChildGet = true :=
  ⟨(Reconcile_drift_finds_deployment twoSitesStore siteB (website siteB "v1") rfl
      (by decide) ⟨errPortAllocated "site-b", rfl, rfl, by decide⟩).2.2.2.1,
   by decide⟩

/-! ## The two computations of the desired image -/

/-- C17. The image the drift branch computes from the parent's tag
(`driftDesiredImage`, the value it compares the observed image against and
writes into the patch) is the first-container image of `newDeployment` for
the same tag, whatever the name and namespace. Consequently, when the drift
branch observes a deployment as `newDeployment` builds it for the parent's
current tag, it issues no patch and returns Done. -/
theorem driftDesiredImage_eq_newDeployment_image :
    (∀ (name ns : String) (w : Website),
      (newDeployment name ns w.Spec.ImageTag).Spec.Template.Spec.Containers.head?.map
        Container.Image = some (driftDesiredImage w)) ∧
    (∀ {σ : Type} (r : Client σ) (w : Website) (s s1 : σ) (d : Deployment) (c0 : Container)
      (rest : List Container),
      r.GetDeployment { Name := w.Name, Namespace := w.Namespace } s = (Except.ok d, s1) →
      d.Spec.Template.Spec.Containers = c0 :: rest →
      (c0.Image = driftDesiredImage w →
        reconcileDrift (traced r) w (s, []) =
          (Outcome.Done, s1,
            [Call.GetDeployment { Name := w.Name, Namespace := w.Namespace }])) ∧
      (c0.Image ≠ driftDesiredImage w →
        (reconcileDrift (traced r) w (s, [])).2.2 =
          [Call.GetDeployment { Name := w.Name, Namespace := w.Namespace },
           Call.PatchDeployment
             { d with Spec.Template.Spec.Containers :=
                 { c0 with Image := driftDesiredImage w } :: rest }
             d])) ∧
    (∀ {σ : Type} (r : Client σ) (w : Website) (name ns : String) (s s1 : σ),
      r.GetDeployment { Name := w.Name, Namespace := w.Namespace } s =
        (Except.ok (newDeployment name ns w.Spec.ImageTag), s1) →
      reconcileDrift (traced r) w (s, []) =
        (Outcome.Done, s1,
          [Call.GetDeployment { Name := w.Name, Namespace := w.Namespace }])) := by
  refine ⟨fun _ _ _ => rfl, ?_, ?_⟩
  · intro σ r w s s1 d c0 rest hget hc
    constructor
    · intro himg
      rw [driftDesiredImage] at himg
      simp [reconcileDrift, traced, hget, hc, himg]
    · intro himg
      rw [driftDesiredImage] at himg
      simp only [reconcileDrift, traced, hget, hc, driftDesiredImage, ne_eq, himg,
        not_false_eq_true, if_true, List.nil_append]
      split <;> rfl
  · intro σ r w name ns s s1 hget
    simp [reconcileDrift, traced, hget, newDeployment]

/-- Witness of C17: on the store, the deployment of `site-a` at `v1` is not
patched for a parent at `v1` and is patched to `v2` for a parent at `v2`. -/
theorem driftDesiredImage_eq_newDeployment_image_witness :
    reconcileDrift (traced storeClient) (website siteA "v1") (settledStore, []) =
      (Outcome.Done, settledStore, [Call.GetDeployment siteA]) ∧
    (reconcileDrift (traced storeClient) (website siteA "v2") (driftedStore, [])).2.2 =
      [Call.GetDeployment siteA,
       Call.PatchDeployment (newDeployment "site-a" "ns" "v2")
         (newDeployment "site-a" "ns" "v1")] :=
  ⟨driftDesiredImage_eq_newDeployment_image.2.2 storeClient (website siteA "v1") "site-a" "ns"
      settledStore settledStore rfl,
   (driftDesiredImage_eq_newDeployment_image.2.1 storeClient (website siteA "v2") driftedStore
      driftedStore (newDeployment "site-a" "ns" "v1")
      { Name := "nginx", Image := "abangser/todo-local-storage:v1",
        Ports := [{ ContainerPort := 80 }] } [] rfl rfl).2 (by decide)⟩

/-- A second reconciliation after convergence from absence reaches the drift
branch and issues no patch. -/
theorem Reconcile_fresh_then_no_patch :
    callsOf storeClient siteA (stateAfter storeClient siteA freshStore) =
      [Call.GetWebsite siteA, Call.CreateDeployment (newDeployment "site-a" "ns" "v1"),
       Call.CreateService (newService "site-a" "ns"), Call.GetDeployment siteA] := by
  decide

end WebsiteController
